import Mathlib

/-!
# Cosa Two-Wire Interface driver: embedding of `Cosa/TWI.cpp`

The interrupt-driven bus controller of `src/Cosa/TWI.cpp` is embedded as pure
functions on an explicit state record `TWI` holding the members of the `twi`
singleton, the hardware registers the code touches, the byte memory the
buffer pointers refer to and the event queue.

Conventions of the embedding:

* pointers (`m_next`, `m_last`, `iovec_t.buf`, `m_target`) are natural-number
  addresses into the flat byte memory `mem`; the null pointer is `0`;
* `TWCR` holds the last command the program wrote; the hardware side of
  `loop_until_bit_is_clear(TWCR, TWSTO)` is a wait on the peripheral and has no
  effect on program state;
* `cmdOut` and `dataOut` are the record a mock register interface keeps of the
  values written to `TWCR` and `TWDR`, in program order;
* the status decoded from `TWSR` at interrupt time is an argument of
  `TWI_vect`; a byte shifted in by the hardware is placed in `TWDR` by
  `BusEvent.deliver` before the handler runs;
* the code is for the AVR (it writes the registers `TWAR`, `TWBR`, `TWCR`,
  `TWDR`, `TWSR` of its two-wire peripheral): `int` is 16 bits wide, so is a
  data pointer, and `uint16_t` is the type of an event value. The counter
  `m_count`, which `await_completed` returns as `int`, is an integer kept in
  the range of `int16`; an event value is kept in the range of `uint16`; a
  buffer `(p, n)` lies inside the data space, `p + n ≤ 65536`, where pointer
  addition is exact, and the one pointer subtraction of the code,
  `m_last - 1`, is `ptr_pred`.
-/

/-! ## Declarations of headers that are not among the sources -/

/-- Modelled from the spec: the `State` enumeration of `Cosa/TWI.hh` (the
header is not among the sources). Spec §3 names the roles and the lifecycle
values; `await_completed` compares with `m_state > IDLE_STATE`, and spec §4.2
says the busy status is observed as `lifecycle > IDLE`, error being terminal,
which fixes the order ERROR < IDLE < every active role. -/
inductive State where
  | ERROR_STATE
  | IDLE_STATE
  | MT_STATE
  | MR_STATE
  | ST_STATE
  | SR_STATE
  deriving DecidableEq, Repr

/-- Modelled from the spec: numeric order of the `State` enumerators (see `State`). -/
def State.toNat : State → Nat
  | .ERROR_STATE => 0
  | .IDLE_STATE => 1
  | .MT_STATE => 2
  | .MR_STATE => 3
  | .ST_STATE => 4
  | .SR_STATE => 5

/-- Modelled from the spec: the status enumeration of `Cosa/TWI.hh`, one
constructor per `case` label of the interrupt handler; `UNNAMED code` stands
for every decoded value that is none of the enumerators (the `default:` label). -/
inductive Status where
  | START
  | REP_START
  | ARB_LOST
  | MT_SLA_ACK
  | MT_SLA_NACK
  | MT_DATA_ACK
  | MT_DATA_NACK
  | MR_SLA_ACK
  | MR_SLA_NACK
  | MR_DATA_ACK
  | MR_DATA_NACK
  | ST_SLA_ACK
  | ST_ARB_LOST_SLA_ACK
  | ST_DATA_ACK
  | ST_DATA_NACK
  | ST_LAST_DATA
  | SR_SLA_ACK
  | SR_ARB_LOST_SLA_ACK
  | SR_GCALL_ACK
  | SR_ARB_LOST_GCALL_ACK
  | SR_DATA_ACK
  | SR_DATA_NACK
  | SR_GCALL_DATA_ACK
  | SR_GCALL_DATA_NACK
  | SR_STOP
  | NO_INFO
  | BUS_ERROR
  | UNNAMED (code : Nat)
  deriving DecidableEq, Repr

/-- Modelled from the spec: the command enumeration of `Cosa/TWI.hh` (spec §6:
the command register is written with one of IDLE, START, STOP, DATA-continue,
ACK-next, NACK-next); `RAW bits` is a literal register value such as the `0`
written by `TWI::end`. -/
inductive Cmd where
  | RAW (bits : Nat)
  | IDLE_CMD
  | START_CMD
  | DATA_CMD
  | ACK_CMD
  | NACK_CMD
  | STOP_CMD
  deriving DecidableEq, Repr

/-- Modelled from the spec: the event kinds of `Cosa/Event.hh` (not among the
sources); only `WRITE_COMPLETED_TYPE` is named by `TWI.cpp`. -/
inductive EventType where
  | WRITE_COMPLETED_TYPE
  | OTHER_TYPE (code : Nat)
  deriving DecidableEq, Repr

/-- Modelled from the spec: an entry of the event queue of `Cosa/Event.hh`
(spec §6: the event carries the kind, the recipient and the byte count). -/
structure Event where
  type : EventType
  target : Nat
  value : Int
  deriving DecidableEq, Repr

/-- Modelled from the spec: `iovec_t` of `Cosa/Types.h` (not among the
sources), a segment `(pointer, length)` of a scatter/gather transfer. -/
structure iovec_t where
  buf : Nat
  size : Nat
  deriving DecidableEq, Repr

/-- Constants that `TWI.cpp` takes from headers that are not among the
sources (`Cosa/TWI.hh`, `Cosa/Board.hh`, the AVR register header, the build
flags). They are parameters of the embedding. -/
structure Decl where
  WRITE_OP : Nat
  READ_OP : Nat
  WRITE_IX : Nat
  READ_IX : Nat
  SDA : Nat
  SCL : Nat
  TWPS0 : Nat
  TWPS1 : Nat
  F_CPU : Nat
  deriving DecidableEq, Repr

/-- The constants as commonly declared for an ATmega328P at 16 MHz, with the
adapter slots WRITE and READ at indices 0 and 1 and the bus convention for
the direction bit (0 writes, 1 reads). Used for concrete evaluations. -/
def Decl.atmega328p : Decl :=
  ⟨0, 1, 0, 1, 4, 5, 0, 1, 16000000⟩

/-- Default Two-Wire Interface clock: 100 KHz (`#define TWI_FREQ 100000L`). -/
def TWI_FREQ : Nat := 100000

/-- Modelled from the spec: `bit_set(p, b)` of `Cosa/Bits.h` on an 8-bit port. -/
def bit_set (p b : Nat) : Nat := p ||| ((1 <<< b) % 256)

/-- Modelled from the spec: `bit_clear(p, b)` of `Cosa/Bits.h` on an 8-bit port. -/
def bit_clear (p b : Nat) : Nat := p &&& (255 - (1 <<< b) % 256)

/-- Pointwise update of a total map (memory cell or vector slot). -/
def upd {α : Type} (f : Nat → α) (i : Nat) (v : α) : Nat → α :=
  fun j => if j = i then v else f j

/-- Modelled from the spec: `iovec_arg(vp, buf, size)` of `Cosa/Types.h`:
stores the segment at `vp` and advances `vp`. -/
def iovec_arg (vec : Nat → iovec_t) (vp : Nat) (buf size : Nat) : (Nat → iovec_t) × Nat :=
  (upd vec vp ⟨buf, size⟩, vp + 1)

/-- Modelled from the spec: `iovec_end(vp)` of `Cosa/Types.h`: stores the
sentinel (null buffer, length zero) at `vp` (spec §3: the segment list is
terminated by a sentinel zero-length entry). -/
def iovec_end (vec : Nat → iovec_t) (vp : Nat) : Nat → iovec_t :=
  upd vec vp ⟨0, 0⟩

/-! ## Machine arithmetic of the AVR target -/

/-- The value of an `int` (16 bits, two's complement) after the result `x` of
an addition has been stored in it: 32767 + 1 is -32768. -/
def int16 (x : Int) : Int := (x + 32768) % 65536 - 32768

/-- The value of a `uint16_t` parameter that is passed the `int` value `x`: a
negative `x` arrives as `x + 65536`. -/
def uint16 (x : Int) : Int := x % 65536

/-- The pointer `p - 1` for a data pointer `p` (16 bits): the null pointer
gives 65535. -/
def ptr_pred (p : Nat) : Nat := (p + 65535) % 65536

/-- The counter `c` after `k` executions of `m_count += 1`. -/
def countAfter (c : Int) : Nat → Int
  | 0 => c
  | k + 1 => countAfter (int16 (c + 1)) k

/-! ## Controller state -/

/-- The `twi` singleton with the registers, memory and event queue it acts on.
`m_count` is the signed byte counter (its declaration is in `Cosa/TWI.hh`;
spec §3: "signed byte counter; becomes -1 to signal failure"; it is what
`await_completed` returns as `int`), every addition to it goes through
`int16`; `m_header` is the address of the header array inside the object,
whose bytes live in `mem`. -/
structure TWI where
  m_target : Nat
  m_addr : Nat
  m_state : State
  m_status : Status
  m_ix : Nat
  m_next : Nat
  m_last : Nat
  m_count : Int
  m_header : Nat
  m_vec : Nat → iovec_t
  TWAR : Nat
  TWBR : Nat
  TWCR : Cmd
  TWDR : Nat
  TWSR : Nat
  PORTC : Nat
  mem : Nat → Nat
  queue : List Event
  cmdOut : List Cmd
  dataOut : List Nat

/-- Program write to the command register `TWCR`. -/
def TWI.setTWCR (c : Cmd) (twi : TWI) : TWI :=
  { twi with TWCR := c, cmdOut := twi.cmdOut ++ [c] }

/-- Program write to the data register `TWDR`. -/
def TWI.setTWDR (v : Nat) (twi : TWI) : TWI :=
  { twi with TWDR := v, dataOut := twi.dataOut ++ [v] }

/-- Modelled from the spec: `Event::push(type, target, value)` of
`Cosa/Event.hh`: posts the event to the queue (spec §6). The value of an event
is a `uint16_t` (as in `on_event(uint8_t type, uint16_t value)`, line 286). -/
def Event.push (type : EventType) (target : Nat) (value : Int) (twi : TWI) : TWI :=
  { twi with queue := twi.queue ++ [⟨type, target, uint16 value⟩] }

/-- A power-on controller: everything zero, idle, header array at `hdr`. -/
def TWI.reset (hdr : Nat) : TWI :=
  { m_target := 0, m_addr := 0, m_state := State.IDLE_STATE, m_status := Status.NO_INFO,
    m_ix := 0, m_next := 0, m_last := 0, m_count := 0, m_header := hdr,
    m_vec := fun _ => ⟨0, 0⟩, TWAR := 0, TWBR := 0, TWCR := Cmd.RAW 0, TWDR := 0,
    TWSR := 0, PORTC := 0, mem := fun _ => 0, queue := [], cmdOut := [], dataOut := [] }

/-! ## `TWI.cpp`: foreground functions -/

/-- The function `TWI::begin(target, addr)`, lines 42-67. -/
def TWI.begin (d : Decl) (target addr : Nat) (twi : TWI) : Bool × TWI :=
  let twi := { twi with m_target := target, m_addr := addr }
  if addr ≠ 0 ∧ target = 0 then (false, twi)
  else
    let twi :=
      if addr ≠ 0 then { twi with TWAR := twi.m_addr }
      else { twi with PORTC := bit_set (bit_set twi.PORTC d.SDA) d.SCL }
    let twi := { twi with TWSR := bit_clear (bit_clear twi.TWSR d.TWPS0) d.TWPS1 }
    let twi := { twi with
      TWBR := (Int.tdiv (Int.tdiv (d.F_CPU : Int) (TWI_FREQ : Int) - 16) 2 % 256).toNat }
    (true, twi.setTWCR Cmd.IDLE_CMD)

/-- The function `TWI::end()`, lines 69-76. -/
def TWI.end (twi : TWI) : Bool × TWI :=
  (true, { (twi.setTWCR (Cmd.RAW 0)) with m_target := 0, TWAR := 0 })

/-- The function `TWI::request(addr)`, lines 78-90. -/
def TWI.request (d : Decl) (addr : Nat) (twi : TWI) : Bool × TWI :=
  let next := (twi.m_vec 0).buf
  let twi := { twi with
    m_addr := addr,
    m_state := if addr &&& d.WRITE_OP ≠ 0 then State.MT_STATE else State.MR_STATE,
    m_status := Status.NO_INFO,
    m_next := next,
    m_last := next + (twi.m_vec 0).size,
    m_ix := 0,
    m_count := 0 }
  (true, twi.setTWCR Cmd.START_CMD)

/-- The function `TWI::write_request(addr, buf, size)`, lines 92-99. -/
def TWI.write_request (d : Decl) (addr buf size : Nat) (twi : TWI) : Bool × TWI :=
  let (vec, vp) := iovec_arg twi.m_vec 0 buf size
  let vec := iovec_end vec vp
  TWI.request d (addr ||| d.WRITE_OP) { twi with m_vec := vec }

/-- The function `TWI::write_request(addr, uint8_t header, buf, size)`, lines 101-110. -/
def TWI.write_request8 (d : Decl) (addr header buf size : Nat) (twi : TWI) : Bool × TWI :=
  let mem := upd twi.mem twi.m_header (header % 256)
  let (vec, vp) := iovec_arg twi.m_vec 0 twi.m_header 1
  let (vec, vp) := iovec_arg vec vp buf size
  let vec := iovec_end vec vp
  TWI.request d (addr ||| d.WRITE_OP) { twi with mem := mem, m_vec := vec }

/-- The function `TWI::write_request(addr, uint16_t header, buf, size)`, lines 112-122. -/
def TWI.write_request16 (d : Decl) (addr header buf size : Nat) (twi : TWI) : Bool × TWI :=
  let mem := upd twi.mem twi.m_header ((header >>> 8) % 256)
  let mem := upd mem (twi.m_header + 1) (header % 256)
  let (vec, vp) := iovec_arg twi.m_vec 0 twi.m_header 2
  let (vec, vp) := iovec_arg vec vp buf size
  let vec := iovec_end vec vp
  TWI.request d (addr ||| d.WRITE_OP) { twi with mem := mem, m_vec := vec }

/-- The function `TWI::read_request(addr, buf, size)`, lines 124-131. -/
def TWI.read_request (d : Decl) (addr buf size : Nat) (twi : TWI) : Bool × TWI :=
  let (vec, vp) := iovec_arg twi.m_vec 0 buf size
  let vec := iovec_end vec vp
  TWI.request d (addr ||| d.READ_OP) { twi with m_vec := vec }

/-! ## `TWI.cpp`: the interrupt handler -/

/-- Body shared by `case MT_DATA_NACK` and the fall-through of the
controller-transmit ACK cases, lines 174-178. -/
def TWI_vect.MT_DATA_NACK (twi : TWI) : TWI :=
  { (twi.setTWCR Cmd.STOP_CMD) with m_state := State.IDLE_STATE }

/-- Body of `case MR_SLA_ACK`, also the tail of `case MR_DATA_ACK`, lines
192-194. The comparison is `m_next < (m_last - 1)` on pointers: with a null
limit `m_last - 1` is the highest address. -/
def TWI_vect.MR_SLA_ACK (twi : TWI) : TWI :=
  twi.setTWCR (if twi.m_next < ptr_pred twi.m_last then Cmd.ACK_CMD else Cmd.NACK_CMD)

/-- Body of `case ST_DATA_ACK`, also the tail of the target-transmit selection
cases, lines 218-227. -/
def TWI_vect.ST_DATA_ACK (twi : TWI) : TWI :=
  if twi.m_next < twi.m_last then
    { ((twi.setTWDR (twi.mem twi.m_next)).setTWCR Cmd.ACK_CMD) with
      m_next := twi.m_next + 1, m_count := int16 (twi.m_count + 1) }
  else
    (twi.setTWDR 255).setTWCR Cmd.NACK_CMD

/-- Body of the error cases that issue a stop: `MT_SLA_NACK`, `MR_SLA_NACK`
and `BUS_ERROR` (lines 179-184, 202-207, 273-278). -/
def TWI_vect.stop_error (twi : TWI) : TWI :=
  { (twi.setTWCR Cmd.STOP_CMD) with m_count := -1, m_state := State.ERROR_STATE }

/-- The interrupt service routine `ISR(TWI_vect)`, lines 140-283. `status` is
`TWI_STATUS(TWSR)` as the hardware presents it when the interrupt fires. -/
def TWI_vect (d : Decl) (status : Status) (twi0 : TWI) : TWI :=
  let twi := { twi0 with m_status := status }
  match status with
  | .START | .REP_START =>
    (twi.setTWDR twi.m_addr).setTWCR Cmd.DATA_CMD
  | .ARB_LOST =>
    { (twi.setTWCR Cmd.IDLE_CMD) with m_state := State.ERROR_STATE, m_count := -1 }
  | .MT_SLA_ACK | .MT_DATA_ACK =>
    let twi :=
      if twi.m_next = twi.m_last then
        let ix := twi.m_ix + 1
        let next := (twi.m_vec ix).buf
        { twi with m_ix := ix, m_next := next, m_last := next + (twi.m_vec ix).size }
      else twi
    if twi.m_next < twi.m_last then
      { ((twi.setTWDR (twi.mem twi.m_next)).setTWCR Cmd.DATA_CMD) with
        m_next := twi.m_next + 1, m_count := int16 (twi.m_count + 1) }
    else TWI_vect.MT_DATA_NACK twi
  | .MT_DATA_NACK => TWI_vect.MT_DATA_NACK twi
  | .MT_SLA_NACK => TWI_vect.stop_error twi
  | .MR_DATA_ACK =>
    TWI_vect.MR_SLA_ACK { twi with
      mem := upd twi.mem twi.m_next twi.TWDR,
      m_next := twi.m_next + 1, m_count := int16 (twi.m_count + 1) }
  | .MR_SLA_ACK => TWI_vect.MR_SLA_ACK twi
  | .MR_DATA_NACK =>
    let twi := { twi with
      mem := upd twi.mem twi.m_next twi.TWDR,
      m_next := twi.m_next + 1, m_count := int16 (twi.m_count + 1) }
    { (twi.setTWCR Cmd.STOP_CMD) with m_state := State.IDLE_STATE }
  | .MR_SLA_NACK => TWI_vect.stop_error twi
  | .ST_SLA_ACK | .ST_ARB_LOST_SLA_ACK =>
    let next := (twi.m_vec d.READ_IX).buf
    TWI_vect.ST_DATA_ACK { twi with
      m_next := next, m_last := next + (twi.m_vec d.READ_IX).size,
      m_count := 0, m_state := State.ST_STATE }
  | .ST_DATA_ACK => TWI_vect.ST_DATA_ACK twi
  | .ST_DATA_NACK | .ST_LAST_DATA =>
    { (twi.setTWCR Cmd.ACK_CMD) with m_state := State.IDLE_STATE }
  | .SR_SLA_ACK | .SR_GCALL_ACK | .SR_ARB_LOST_SLA_ACK | .SR_ARB_LOST_GCALL_ACK =>
    let next := (twi.m_vec d.READ_IX).buf
    let twi := { twi with
      m_next := next, m_last := next + (twi.m_vec d.READ_IX).size, m_count := 0 }
    { (twi.setTWCR Cmd.ACK_CMD) with m_state := State.SR_STATE }
  | .SR_DATA_ACK | .SR_GCALL_DATA_ACK =>
    if twi.m_next < twi.m_last then
      let twi := { twi with
        mem := upd twi.mem twi.m_next twi.TWDR,
        m_next := twi.m_next + 1, m_count := int16 (twi.m_count + 1) }
      twi.setTWCR Cmd.ACK_CMD
    else twi.setTWCR Cmd.NACK_CMD
  | .SR_STOP =>
    let twi := { (twi.setTWCR Cmd.STOP_CMD) with m_state := State.IDLE_STATE, TWAR := 0 }
    Event.push EventType.WRITE_COMPLETED_TYPE twi.m_target twi.m_count twi
  | .SR_DATA_NACK | .SR_GCALL_DATA_NACK => twi.setTWCR Cmd.NACK_CMD
  | .NO_INFO => twi
  | .BUS_ERROR => TWI_vect.stop_error twi
  | .UNNAMED _ => twi.setTWCR Cmd.IDLE_CMD

/-! ## `TWI.cpp`: adapter in target mode -/

/-- The abstract class `TWI::Device`: its pure virtual `on_request(buf, size)`
is supplied by the peripheral emulation and may act on the whole state. -/
structure TWI.Device where
  on_request : Nat → Nat → TWI → TWI

/-- The function `TWI::Device::on_event(type, value)`, lines 285-293. -/
def TWI.Device.on_event (d : Decl) (dev : TWI.Device) (type : EventType) (value : Nat)
    (twi : TWI) : TWI :=
  if type ≠ EventType.WRITE_COMPLETED_TYPE then twi
  else
    let buf := (twi.m_vec d.WRITE_IX).buf
    let size := value
    let twi := dev.on_request buf size twi
    { twi with TWAR := twi.m_addr }

/-- The function `TWI::Device::set_write_buf(buf, size)`, lines 295-300. -/
def TWI.Device.set_write_buf (d : Decl) (buf size : Nat) (twi : TWI) : TWI :=
  { twi with m_vec := upd twi.m_vec d.WRITE_IX ⟨buf, size⟩ }

/-- The function `TWI::Device::set_read_buf(buf, size)`, lines 302-307. -/
def TWI.Device.set_read_buf (d : Decl) (buf size : Nat) (twi : TWI) : TWI :=
  { twi with m_vec := upd twi.m_vec d.READ_IX ⟨buf, size⟩ }

/-! ## Bus events and the foreground wait -/

/-- One interrupt as the hardware raises it: the decoded status, and the byte
the hardware has shifted into `TWDR` when the event is a reception. -/
structure BusEvent where
  status : Status
  data : Option Nat
  deriving DecidableEq, Repr

/-- An event without received data. -/
def ev (status : Status) : BusEvent := ⟨status, none⟩

/-- An event that comes with a received byte in `TWDR`. -/
def rx (status : Status) (b : Nat) : BusEvent := ⟨status, some b⟩

/-- The hardware raises the interrupt: `TWDR` holds the received byte, if any,
and the handler runs on the decoded status. -/
def BusEvent.deliver (d : Decl) (e : BusEvent) (twi : TWI) : TWI :=
  match e.data with
  | some b => TWI_vect d e.status { twi with TWDR := b }
  | none => TWI_vect d e.status twi

/-- The handler run on a sequence of interrupts, in order. -/
def run (d : Decl) : List BusEvent → TWI → TWI
  | [], twi => twi
  | e :: es, twi => run d es (e.deliver d twi)

/-- The function `TWI::await_completed(mode)`, lines 133-138. Each
`Power::sleep` returns after the next interrupt of the given sequence has been
handled; with no interrupt left while the state is still active the caller
sleeps forever (`none`). Returns `m_count` and the state reached. -/
def TWI.await_completed (d : Decl) : List BusEvent → TWI → Option (Int × TWI)
  | [], twi =>
    if State.IDLE_STATE.toNat < twi.m_state.toNat then none
    else some (twi.m_count, twi)
  | e :: es, twi =>
    if State.IDLE_STATE.toNat < twi.m_state.toNat then
      TWI.await_completed d es (e.deliver d twi)
    else some (twi.m_count, twi)

/-- The bytes of memory `mem` at addresses `p, p+1, ..., p+n-1`. -/
def bytesAt (mem : Nat → Nat) : Nat → Nat → List Nat
  | _, 0 => []
  | p, n + 1 => mem p :: bytesAt mem (p + 1) n

/-- A target in controller-receive mode that keeps sending the bytes of
`offer`: after an ACK request the next byte arrives with `MR_DATA_ACK`, after
a NACK request it arrives with `MR_DATA_NACK` and the target falls silent. -/
def mr_target (d : Decl) : List Nat → TWI → TWI
  | [], twi => twi
  | b :: rest, twi =>
    if twi.TWCR = Cmd.ACK_CMD then
      mr_target d rest ((rx Status.MR_DATA_ACK b).deliver d twi)
    else if twi.TWCR = Cmd.NACK_CMD then
      (rx Status.MR_DATA_NACK b).deliver d twi
    else twi

/-- A controller in the middle of a controller-transmit transaction: role
MT_STATE, one byte already counted, cursor inside segment 1, last command
DATA_CMD. -/
def inflight : TWI :=
  { TWI.reset 50 with
    m_addr := 0x7C, m_state := State.MT_STATE, m_status := Status.MT_DATA_ACK,
    m_ix := 1, m_next := 101, m_last := 104, m_count := 1,
    m_vec := upd (upd (fun _ => ⟨0, 0⟩) 0 ⟨50, 1⟩) 1 ⟨100, 4⟩,
    TWCR := Cmd.DATA_CMD, cmdOut := [Cmd.START_CMD, Cmd.DATA_CMD, Cmd.DATA_CMD] }

/-- A controller-transmit acknowledge interrupt: address or data ACKed, no
received byte. -/
def isMTAck (e : BusEvent) : Prop :=
  (e.status = Status.MT_SLA_ACK ∨ e.status = Status.MT_DATA_ACK) ∧ e.data = none

/-- State `r` is state `s` after `k` bytes of the current segment have been
transmitted: cursor and counter advanced by `k`, the bytes appended to the
data-register record, `k` DATA commands issued, everything else as in `s`. -/
def MTSent (k : Nat) (s r : TWI) : Prop :=
  r.m_next = s.m_next + k ∧ r.m_last = s.m_last ∧ r.m_ix = s.m_ix ∧
  r.m_vec = s.m_vec ∧ r.mem = s.mem ∧ r.m_count = countAfter s.m_count k ∧
  r.m_state = s.m_state ∧
  r.dataOut = s.dataOut ++ bytesAt s.mem s.m_next k ∧
  r.cmdOut = s.cmdOut ++ List.replicate k Cmd.DATA_CMD ∧
  r.queue = s.queue ∧ r.m_header = s.m_header ∧ r.m_addr = s.m_addr ∧
  r.TWAR = s.TWAR

/-- The lifecycle is busy: `m_state > IDLE_STATE`, the loop condition of
`await_completed`. -/
def TWI.active (twi : TWI) : Prop := State.IDLE_STATE.toNat < twi.m_state.toNat

/-- The effect of lines 164-166 of the handler: move to the next segment of
the vector. -/
def TWI.nextSegment (twi : TWI) : TWI :=
  { twi with
    m_ix := twi.m_ix + 1,
    m_next := (twi.m_vec (twi.m_ix + 1)).buf,
    m_last := (twi.m_vec (twi.m_ix + 1)).buf + (twi.m_vec (twi.m_ix + 1)).size }

/-- The interrupts an always-ACK target produces for a controller-transmit
transaction of `n` bytes: START, the address ACK, and a data ACK after each of
the `n` bytes. -/
def alwaysAck (n : Nat) : List BusEvent :=
  ev Status.START :: ev Status.MT_SLA_ACK :: List.replicate n (ev Status.MT_DATA_ACK)

/-- A power-on controller (header array at address 50) with the byte 0x0C, a
form feed, in memory at address 100. -/
def lcd_twi : TWI :=
  { TWI.reset 50 with mem := upd (fun _ => 0) 100 0x0C }

/-- A whole controller-receive transaction: `read_request(addr, buf, size)`,
then START, the address ACK, and the data phase against a target that keeps
sending the bytes of `offer`. -/
def read_transfer (d : Decl) (addr buf size : Nat) (offer : List Nat) (twi : TWI) : TWI :=
  mr_target d offer
    (run d [ev Status.START, ev Status.MR_SLA_ACK] (TWI.read_request d addr buf size twi).2)

/-- A node set up as bus target: `begin(7, 0x5A)` on a power-on controller
whose memory holds 0x11, 0x22 at addresses 200, 201, then
`set_write_buf(100, 4)`: the WRITE buffer is the 4 bytes at address 100. -/
def node_write_only : TWI :=
  TWI.Device.set_write_buf Decl.atmega328p 100 4
    (TWI.begin Decl.atmega328p 7 0x5A
      { TWI.reset 50 with mem := upd (upd (fun _ => 0) 200 0x11) 201 0x22 }).2

/-- The node `node_write_only` after `set_read_buf(200, 2)`: the READ buffer
is the 2 bytes at address 200. -/
def node : TWI :=
  TWI.Device.set_read_buf Decl.atmega328p 200 2 node_write_only

/-- A test adapter: its `on_request(buf, size)` reports what it was handed by
posting an event of kind `OTHER_TYPE 0` with `buf` as target and `size` as
value. -/
def probe : TWI.Device :=
  ⟨fun buf size twi => Event.push (EventType.OTHER_TYPE 0) buf size twi⟩

/-! ## Program state without the write records -/

/-- The state the program can observe: the records `cmdOut` and `dataOut` that
the mock register interface keeps of the writes are erased. -/
def TWI.program (twi : TWI) : TWI :=
  { twi with cmdOut := [], dataOut := [] }

/-- The number of times `Power::sleep` is called by `await_completed` (the
number of iterations of its loop) when the interrupts of the given sequence
arrive one per sleep. -/
def TWI.await_sleeps (d : Decl) : List BusEvent → TWI → Nat
  | [], _ => 0
  | e :: es, twi =>
    if State.IDLE_STATE.toNat < twi.m_state.toNat then
      1 + TWI.await_sleeps d es (e.deliver d twi)
    else 0

/-- The status decoding `TWI_STATUS(TWSR)` followed by the selection of the
`case` label: `table` lists the values of the named enumerators (declared in
`Cosa/TWI.hh`, not among the sources); a decoded value that is none of them
goes to `default:`. -/
def decodeStatus (table : List (Nat × Status)) (v : Nat) : Status :=
  (table.lookup v).getD (Status.UNNAMED v)

/-- The status is one of the named enumerators of the handler's `switch`. -/
def Status.named : Status → Bool
  | .UNNAMED _ => false
  | _ => true

/-- The status values of the AVR two-wire peripheral after `TWI_STATUS`
(datasheet codes shifted right by 3) with the enumerator each one names. Used
for concrete evaluations of `decodeStatus`. -/
def avrStatusTable : List (Nat × Status) :=
  [(0x08 >>> 3, Status.START), (0x10 >>> 3, Status.REP_START), (0x38 >>> 3, Status.ARB_LOST),
   (0x18 >>> 3, Status.MT_SLA_ACK), (0x20 >>> 3, Status.MT_SLA_NACK),
   (0x28 >>> 3, Status.MT_DATA_ACK), (0x30 >>> 3, Status.MT_DATA_NACK),
   (0x40 >>> 3, Status.MR_SLA_ACK), (0x48 >>> 3, Status.MR_SLA_NACK),
   (0x50 >>> 3, Status.MR_DATA_ACK), (0x58 >>> 3, Status.MR_DATA_NACK),
   (0xA8 >>> 3, Status.ST_SLA_ACK), (0xB0 >>> 3, Status.ST_ARB_LOST_SLA_ACK),
   (0xB8 >>> 3, Status.ST_DATA_ACK), (0xC0 >>> 3, Status.ST_DATA_NACK),
   (0xC8 >>> 3, Status.ST_LAST_DATA),
   (0x60 >>> 3, Status.SR_SLA_ACK), (0x68 >>> 3, Status.SR_ARB_LOST_SLA_ACK),
   (0x70 >>> 3, Status.SR_GCALL_ACK), (0x78 >>> 3, Status.SR_ARB_LOST_GCALL_ACK),
   (0x80 >>> 3, Status.SR_DATA_ACK), (0x88 >>> 3, Status.SR_DATA_NACK),
   (0x90 >>> 3, Status.SR_GCALL_DATA_ACK), (0x98 >>> 3, Status.SR_GCALL_DATA_NACK),
   (0xA0 >>> 3, Status.SR_STOP),
   (0xF8 >>> 3, Status.NO_INFO), (0x00 >>> 3, Status.BUS_ERROR)]

/-! ## `HammingCodec.cpp`: Hamming(8,4) tables -/

/-- Encoding table `HammingCodec::symbols`; 4-bit code to 8-bit symbol
(`HammingCodec.cpp`, lines 24-26). -/
def HammingCodec.symbols : List Nat :=
  [0x0f, 0x18, 0x24, 0x33, 0x42, 0x55, 0x69, 0x7e, 0x81, 0x96, 0xaa, 0xbd, 0xcc, 0xdb, 0xe7, 0xf0]

/-- Decoding table `HammingCodec::codes[256]` of the build with
`HAMMING_SYNDROME`; 8-bit symbol to 4-bit code (LSB) and 4-bit syndrome (MSB)
(`HammingCodec.cpp`, lines 31-48). -/
def HammingCodec.codes256 : List Nat :=
  [
   0xf0, 0xe8, 0xd4, 0xc0, 0xb2, 0xa0, 0x90, 0x80, 0x71, 0x60, 0x50, 0x40, 0x30, 0x20, 0x10, 0x00,
   0x81, 0x91, 0xa1, 0xb3, 0xc1, 0xd5, 0xe9, 0xf1, 0x01, 0x11, 0x21, 0x31, 0x41, 0x51, 0x61, 0x70,
   0x42, 0x52, 0x62, 0x73, 0x02, 0x12, 0x22, 0x32, 0xc2, 0xd6, 0xea, 0xf2, 0x82, 0x92, 0xa2, 0xb0,
   0x33, 0x23, 0x13, 0x03, 0x72, 0x63, 0x53, 0x43, 0xb1, 0xa3, 0x93, 0x83, 0xf3, 0xeb, 0xd7, 0xc3,
   0x24, 0x34, 0x04, 0x14, 0x64, 0x75, 0x44, 0x54, 0xa4, 0xb6, 0x84, 0x94, 0xec, 0xf4, 0xc4, 0xd0,
   0x55, 0x45, 0x74, 0x65, 0x15, 0x05, 0x35, 0x25, 0xd1, 0xc5, 0xf5, 0xed, 0x95, 0x85, 0xb7, 0xa5,
   0x96, 0x86, 0xb4, 0xa6, 0xd2, 0xc6, 0xf6, 0xee, 0x16, 0x06, 0x36, 0x26, 0x56, 0x46, 0x77, 0x66,
   0xef, 0xf7, 0xc7, 0xd3, 0xa7, 0xb5, 0x87, 0x97, 0x67, 0x76, 0x47, 0x57, 0x27, 0x37, 0x07, 0x17,
   0x18, 0x08, 0x38, 0x28, 0x58, 0x48, 0x79, 0x68, 0x98, 0x88, 0xba, 0xa8, 0xdc, 0xc8, 0xf8, 0xe0,
   0x69, 0x78, 0x49, 0x59, 0x29, 0x39, 0x09, 0x19, 0xe1, 0xf9, 0xc9, 0xdd, 0xa9, 0xbb, 0x89, 0x99,
   0xaa, 0xb8, 0x8a, 0x9a, 0xe2, 0xfa, 0xca, 0xde, 0x2a, 0x3a, 0x0a, 0x1a, 0x6a, 0x7b, 0x4a, 0x5a,
   0xdf, 0xcb, 0xfb, 0xe3, 0x9b, 0x8b, 0xb9, 0xab, 0x5b, 0x4b, 0x7a, 0x6b, 0x1b, 0x0b, 0x3b, 0x2b,
   0xcc, 0xd8, 0xe4, 0xfc, 0x8c, 0x9c, 0xac, 0xbe, 0x4c, 0x5c, 0x6c, 0x7d, 0x0c, 0x1c, 0x2c, 0x3c,
   0xbf, 0xad, 0x9d, 0x8d, 0xfd, 0xe5, 0xd9, 0xcd, 0x3d, 0x2d, 0x1d, 0x0d, 0x7c, 0x6d, 0x5d, 0x4d,
   0x7f, 0x6e, 0x5e, 0x4e, 0x3e, 0x2e, 0x1e, 0x0e, 0xfe, 0xe6, 0xda, 0xce, 0xbc, 0xae, 0x9e, 0x8e,
   0x0f, 0x1f, 0x2f, 0x3f, 0x4f, 0x5f, 0x6f, 0x7e, 0x8f, 0x9f, 0xaf, 0xbd, 0xcf, 0xdb, 0xe7, 0xff]

/-- Decoding table `HammingCodec::codes[128]` of the build without
`HAMMING_SYNDROME`; 8-bit symbol to 4-bit code; nibble vector
(`HammingCodec.cpp`, lines 53-70). -/
def HammingCodec.codes128 : List Nat :=
  [
   0x08, 0x40, 0x20, 0x00, 0x10, 0x00, 0x00, 0x00,
   0x11, 0x13, 0x15, 0x91, 0x11, 0x11, 0x11, 0x10,
   0x22, 0x23, 0x22, 0x22, 0x26, 0xa2, 0x22, 0x20,
   0x33, 0x33, 0x23, 0x33, 0x13, 0x33, 0x3b, 0x73,
   0x44, 0x44, 0x45, 0x44, 0x46, 0x44, 0xc4, 0x40,
   0x55, 0x45, 0x55, 0x55, 0x15, 0x5d, 0x55, 0x75,
   0x66, 0x46, 0x26, 0x6e, 0x66, 0x66, 0x66, 0x76,
   0xf7, 0x73, 0x75, 0x77, 0x76, 0x77, 0x77, 0x77,
   0x88, 0x88, 0x88, 0x98, 0x88, 0xa8, 0xc8, 0x80,
   0x98, 0x99, 0x99, 0x99, 0x19, 0x9d, 0x9b, 0x99,
   0xa8, 0xaa, 0x2a, 0xae, 0xaa, 0xaa, 0xab, 0xaa,
   0xfb, 0xb3, 0xbb, 0x9b, 0xbb, 0xab, 0xbb, 0xbb,
   0xc8, 0x4c, 0xcc, 0xce, 0xcc, 0xcd, 0xcc, 0xcc,
   0xfd, 0xdd, 0xd5, 0x9d, 0xdd, 0xdd, 0xcd, 0xdd,
   0xfe, 0xee, 0xee, 0xee, 0xe6, 0xae, 0xce, 0xee,
   0xff, 0xff, 0xff, 0xfe, 0xff, 0xfd, 0xfb, 0x7f]

/-- Modelled from the spec: `HammingCodec::encode4(code)` of `HammingCodec.hh`
(not among the sources): the entry of `symbols` for the 4-bit code. -/
def HammingCodec.encode4 (code : Nat) : Nat :=
  HammingCodec.symbols.getD code 0

/-- Modelled from the spec: `HammingCodec::decode4(symbol)` of
`HammingCodec.hh` (not among the sources) in the build without
`HAMMING_SYNDROME`: entry `symbol / 2` of the nibble vector, its high nibble
for an even symbol and its low nibble for an odd symbol. -/
def HammingCodec.decode4 (symbol : Nat) : Nat :=
  if symbol &&& 1 ≠ 0 then (HammingCodec.codes128.getD (symbol >>> 1) 0) &&& 0xf
  else (HammingCodec.codes128.getD (symbol >>> 1) 0) >>> 4

/-- Modelled from the spec: `HammingCodec::decode4(symbol)` of
`HammingCodec.hh` (not among the sources) in the build with `HAMMING_SYNDROME`:
the low nibble of entry `symbol` of the table with syndrome. -/
def HammingCodec.decode4_syndrome (symbol : Nat) : Nat :=
  (HammingCodec.codes256.getD symbol 0) &&& 0xf

/-- The syndrome of a symbol: the high nibble of its entry in the table with
syndrome. -/
def HammingCodec.syndrome (symbol : Nat) : Nat :=
  (HammingCodec.codes256.getD symbol 0) >>> 4

/-! ## `Cosa/UML/Connector.hh` -/

/-- Modelled from the spec: the global `controller` of `Cosa/UML/Controller.hh`
(not among the sources), seen through the one call the connector makes: the
list of the listener vectors passed to `controller.schedule`, in call order. -/
structure UML.Controller where
  scheduled : List Nat
  deriving DecidableEq, Repr

/-- Modelled from the spec: `Controller::schedule(listeners)` of
`Cosa/UML/Controller.hh` (not among the sources): the call is recorded. -/
def UML.Controller.schedule (listeners : Nat) (c : UML.Controller) : UML.Controller :=
  ⟨c.scheduled ++ [listeners]⟩

/-- The members of `Connector<T, ON_CHANGE>` (lines 99-101): the value and the
pointer to the null terminated vector of listeners. -/
structure UML.Connector (T : Type) where
  m_value : T
  m_listeners : Nat

/-- The assignment `T operator=(T value)` of `Connector<T, ON_CHANGE>`, lines
71-77; returns the value, the connector and the controller. -/
def UML.Connector.assign {T : Type} [DecidableEq T] (ON_CHANGE : Bool) (value : T)
    (self : UML.Connector T) (controller : UML.Controller) :
    T × UML.Connector T × UML.Controller :=
  if ON_CHANGE && decide (self.m_value = value) then (value, self, controller)
  else
    (value, { self with m_value := value }, controller.schedule self.m_listeners)

/-- The assignment `T operator=(Connector<T> &connector)`, lines 85-88. -/
def UML.Connector.assignFrom {T : Type} [DecidableEq T] (ON_CHANGE : Bool)
    (connector : UML.Connector T) (self : UML.Connector T) (controller : UML.Controller) :
    T × UML.Connector T × UML.Controller :=
  UML.Connector.assign ON_CHANGE connector.m_value self controller

/-- The conversion `operator T()`, lines 94-97. -/
def UML.Connector.get {T : Type} (self : UML.Connector T) : T :=
  self.m_value

/-- A data interrupt in target-receive mode with the received byte `b`:
SR_GCALL_DATA_ACK when `gcall` is set, SR_DATA_ACK otherwise. -/
def srData (gcall : Bool) (b : Nat) : BusEvent :=
  rx (if gcall then Status.SR_GCALL_DATA_ACK else Status.SR_DATA_ACK) b

/-- The data interrupts for a sequence of received bytes, each marked as
general call or not. -/
def srDataEvents (bs : List (Bool × Nat)) : List BusEvent :=
  bs.map (fun p => srData p.1 p.2)

/-- The status is one of the four target-receive selection events. -/
def isSRSelect (st : Status) : Prop :=
  st = Status.SR_SLA_ACK ∨ st = Status.SR_GCALL_ACK ∨ st = Status.SR_ARB_LOST_SLA_ACK ∨
    st = Status.SR_ARB_LOST_GCALL_ACK

/-- The status is a target-selected event: the node has been addressed as
target-transmitter or target-receiver. -/
def Status.targetSelect : Status → Bool
  | .ST_SLA_ACK | .ST_ARB_LOST_SLA_ACK => true
  | .SR_SLA_ACK | .SR_GCALL_ACK | .SR_ARB_LOST_SLA_ACK | .SR_ARB_LOST_GCALL_ACK => true
  | _ => false

/-- The node `node` selected as target-transmitter: role ST_STATE, first byte
of the READ buffer loaded. -/
def node_transmitting : TWI :=
  run Decl.atmega328p [ev Status.ST_SLA_ACK] node

/-- Modelled from the spec: the calls `VLCD::Slave::on_request` makes on the
LCD device `m_lcd` (the device class is declared in `Cosa/LCD.hh`, not among
the sources), recorded in call order. -/
inductive LCD.Call where
  | putchar (c : Nat)
  | backlight_off
  | backlight_on
  | display_off
  | display_on
  | set_cursor (x y : Nat)
  deriving DecidableEq, Repr

/-- The command codes of `VLCD::Slave`, declared in `Cosa/VLCD.hh` (not among
the sources); they are parameters of the embedding. -/
structure VLCD.Slave.Codes where
  BACKLIGHT_OFF_CMD : Nat
  BACKLIGHT_ON_CMD : Nat
  DISPLAY_OFF_CMD : Nat
  DISPLAY_ON_CMD : Nat
  deriving DecidableEq, Repr

/-- The loop `for (uint8_t i = 1; i < size; i++) m_lcd->putchar(m_buf[i]);` of
`VLCD::Slave::on_request`, lines 35-36, entered with the counter at `i` and
the calls made so far. The counter is 8 bits wide and `size` is a `size_t`;
`fuel` bounds the number of times the loop condition is tested, and `none`
means the loop is still running when the fuel is used up. -/
def VLCD.Slave.on_request.loop (m_buf : Nat → Nat) (size : Nat) :
    Nat → Nat → List LCD.Call → Option (List LCD.Call)
  | 0, _, _ => none
  | fuel + 1, i, calls =>
    if i < size then
      VLCD.Slave.on_request.loop m_buf size fuel ((i + 1) % 256)
        (calls ++ [LCD.Call.putchar (m_buf i)])
    else some calls

/-- The function `VLCD::Slave::on_request(buf, size)`, lines 29-53; `m_buf` is
the receive buffer member of the slave, which the function reads instead of
its argument `buf`. Returns the calls made on the LCD, or `none` when the
function has not returned within `fuel` tests of the loop condition. -/
def VLCD.Slave.on_request (k : VLCD.Slave.Codes) (m_buf : Nat → Nat) (fuel : Nat)
    (buf size : Nat) : Option (List LCD.Call) :=
  let c := m_buf 0
  if c ≠ 0 then
    VLCD.Slave.on_request.loop m_buf size fuel 1 [LCD.Call.putchar c]
  else if size = 2 then
    let cmd := m_buf 1
    if cmd = k.BACKLIGHT_OFF_CMD then some [LCD.Call.backlight_off]
    else if cmd = k.BACKLIGHT_ON_CMD then some [LCD.Call.backlight_on]
    else if cmd = k.DISPLAY_OFF_CMD then some [LCD.Call.display_off]
    else if cmd = k.DISPLAY_ON_CMD then some [LCD.Call.display_on]
    else some []
  else if size = 3 then
    let x := m_buf 1
    let y := m_buf 2
    some [LCD.Call.set_cursor x y]
  else some []

/-- A receive buffer that still holds the text "Hi" (0x48, 0x69) of an
earlier message. -/
def stale_text : Nat → Nat :=
  upd (upd (fun _ => 0) 0 0x48) 1 0x69

/-- A controller-transmit transaction in flight, reached through the code:
`write_request(0x3E, uint8_t(0x00), buf, 2)` with the buffer at 100 on the
power-on controller `lcd_twi`, then START, the address ACK and one data ACK.
The header byte and the first payload byte have been loaded, the second payload
byte is still to come. -/
def lcd_inflight : TWI :=
  run Decl.atmega328p [ev Status.START, ev Status.MT_SLA_ACK, ev Status.MT_DATA_ACK]
    (TWI.write_request8 Decl.atmega328p 0x3E 0x00 100 2 lcd_twi).2

/-- A node set up as bus target with a WRITE buffer smaller than its READ
buffer: `begin(7, 0x5A)` on a power-on controller, `set_write_buf(100, 2)`,
`set_read_buf(200, 4)`. -/
def node_small_write : TWI :=
  TWI.Device.set_read_buf Decl.atmega328p 200 4
    (TWI.Device.set_write_buf Decl.atmega328p 100 2
      (TWI.begin Decl.atmega328p 7 0x5A (TWI.reset 50)).2)

/-! ## Theorems -/

/-! ### Auxiliary lemmas: the 16-bit counter -/

theorem int16_of_range (x : Int) (h1 : -32768 ≤ x) (h2 : x ≤ 32767) : int16 x = x := by
  unfold int16
  omega

theorem int16_int16_add (x y : Int) : int16 (int16 x + y) = int16 (x + y) := by
  unfold int16
  omega

theorem countAfter_eq (k : Nat) :
    ∀ c : Int, countAfter c k = if k = 0 then c else int16 (c + k) := by
  induction k with
  | zero => intro c; rfl
  | succ k ih =>
    intro c
    show countAfter (int16 (c + 1)) k = _
    rw [ih]
    by_cases hk : k = 0
    · subst hk; simp
    · rw [if_neg hk, if_neg (by omega), int16_int16_add]
      push_cast
      congr 1
      ring

theorem countAfter_zero (c : Int) : countAfter c 0 = c := rfl

theorem countAfter_one (c : Int) : countAfter c 1 = int16 (c + 1) := rfl

theorem countAfter_start (k : Nat) : countAfter 0 k = int16 k := by
  rw [countAfter_eq]
  by_cases hk : k = 0
  · subst hk; rfl
  · rw [if_neg hk, Int.zero_add]

theorem countAfter_of_range (c : Int) (k : Nat) (h1 : -32768 ≤ c) (h2 : c + k ≤ 32767) :
    countAfter c k = c + k := by
  rw [countAfter_eq]
  by_cases hk : k = 0
  · subst hk; simp
  · rw [if_neg hk]
    exact int16_of_range _ (by omega) h2

theorem ptr_pred_of_range (p : Nat) (h1 : 1 ≤ p) (h2 : p ≤ 65536) : ptr_pred p = p - 1 := by
  unfold ptr_pred
  omega

/-- C3: from every state, a handler step on MT_SLA_NACK, MR_SLA_NACK, ARB_LOST
or BUS_ERROR sets `m_count` to -1 and the lifecycle to ERROR and writes STOP
(IDLE for arbitration lost) to the command register; hence after any
`request`, when the address is NACKed (START then MT_SLA_NACK or MR_SLA_NACK),
`await_completed` returns -1 in lifecycle ERROR, having taken both events. -/
theorem C3_error_events_abort (d : Decl) (twi : TWI) (addr : Nat) :
    (∀ st, st = Status.MT_SLA_NACK ∨ st = Status.MR_SLA_NACK ∨ st = Status.BUS_ERROR →
      (TWI_vect d st twi).m_count = -1 ∧
      (TWI_vect d st twi).m_state = State.ERROR_STATE ∧
      (TWI_vect d st twi).TWCR = Cmd.STOP_CMD ∧
      (TWI_vect d st twi).cmdOut = twi.cmdOut ++ [Cmd.STOP_CMD]) ∧
    ((TWI_vect d Status.ARB_LOST twi).m_count = -1 ∧
      (TWI_vect d Status.ARB_LOST twi).m_state = State.ERROR_STATE ∧
      (TWI_vect d Status.ARB_LOST twi).TWCR = Cmd.IDLE_CMD ∧
      (TWI_vect d Status.ARB_LOST twi).cmdOut = twi.cmdOut ++ [Cmd.IDLE_CMD]) ∧
    (∀ nack, nack = Status.MT_SLA_NACK ∨ nack = Status.MR_SLA_NACK →
      ∃ r, TWI.await_completed d [ev Status.START, ev nack] (TWI.request d addr twi).2
          = some (-1, r) ∧
        r = run d [ev Status.START, ev nack] (TWI.request d addr twi).2 ∧
        r.m_state = State.ERROR_STATE ∧ r.m_count = -1 ∧
        TWI.await_completed d [ev Status.START] (TWI.request d addr twi).2 = none) := by
  refine ⟨?_, ?_, ?_⟩
  · rintro st (h | h | h) <;> subst h <;>
      simp [TWI_vect, TWI_vect.stop_error, TWI.setTWCR]
  · simp [TWI_vect, TWI.setTWCR]
  · rintro nack (h | h) <;> subst h <;>
      refine ⟨_, ?_, rfl, ?_, ?_, ?_⟩ <;>
      by_cases hw : addr &&& d.WRITE_OP = 0 <;>
      simp [TWI.await_completed, run, BusEvent.deliver, ev, TWI.request, TWI_vect,
        TWI_vect.stop_error, TWI.setTWCR, TWI.setTWDR, State.toNat, hw]

/-- C5 (counterexample): with a transaction in flight (lifecycle active, the
second payload byte of a `write_request` still to come), `request` is not
rejected: it returns true, resets `m_count` from 2 to 0, moves the cursor and
the segment index back to segment 0, replaces the address byte and overwrites
the command register with START. -/
theorem C5_request_while_active_is_accepted :
    State.IDLE_STATE.toNat < lcd_inflight.m_state.toNat ∧
    (TWI.request Decl.atmega328p 0x20 lcd_inflight).1 = true ∧
    lcd_inflight.m_count = 2 ∧ (TWI.request Decl.atmega328p 0x20 lcd_inflight).2.m_count = 0 ∧
    lcd_inflight.m_ix = 1 ∧ (TWI.request Decl.atmega328p 0x20 lcd_inflight).2.m_ix = 0 ∧
    lcd_inflight.m_next = 101 ∧ (TWI.request Decl.atmega328p 0x20 lcd_inflight).2.m_next = 50 ∧
    lcd_inflight.m_last = 102 ∧ (TWI.request Decl.atmega328p 0x20 lcd_inflight).2.m_last = 51 ∧
    lcd_inflight.m_addr = 0x3E ∧
    (TWI.request Decl.atmega328p 0x20 lcd_inflight).2.m_addr = 0x20 ∧
    lcd_inflight.TWCR = Cmd.DATA_CMD ∧
    (TWI.request Decl.atmega328p 0x20 lcd_inflight).2.TWCR = Cmd.START_CMD := by
  decide

/-- C5 (amended): `request` makes no check of the lifecycle. From every state,
a transaction in flight included, it returns true, stores the address, puts
cursor and limit on segment 0 of the vector, zeroes the segment index and
`m_count`, writes START to the command register and leaves the vector and the
memory as they are; the lifecycle is active afterwards. -/
theorem C5_request_always_primes (d : Decl) (addr : Nat) (twi : TWI) :
    (TWI.request d addr twi).1 = true ∧
    (TWI.request d addr twi).2.m_addr = addr ∧
    State.IDLE_STATE.toNat < (TWI.request d addr twi).2.m_state.toNat ∧
    (TWI.request d addr twi).2.m_next = (twi.m_vec 0).buf ∧
    (TWI.request d addr twi).2.m_last = (twi.m_vec 0).buf + (twi.m_vec 0).size ∧
    (TWI.request d addr twi).2.m_ix = 0 ∧
    (TWI.request d addr twi).2.m_count = 0 ∧
    (TWI.request d addr twi).2.TWCR = Cmd.START_CMD ∧
    (TWI.request d addr twi).2.cmdOut = twi.cmdOut ++ [Cmd.START_CMD] ∧
    (TWI.request d addr twi).2.m_vec = twi.m_vec ∧
    (TWI.request d addr twi).2.mem = twi.mem := by
  by_cases hw : addr &&& d.WRITE_OP = 0 <;>
    simp [TWI.request, TWI.setTWCR, State.toNat, hw]

/-- C10: `begin(target, addr)` returns false exactly when `addr` is non-zero
and `target` is null, and then no hardware register is written (address
filter, clock divider, command register, status register, port and data
register keep their values and no command is issued); otherwise it returns
true, the command register holds IDLE, written once, and when `addr` is
non-zero the address filter holds `addr`. -/
theorem C10_begin_result (d : Decl) (target addr : Nat) (twi : TWI) :
    ((TWI.begin d target addr twi).1 = false ↔ (addr ≠ 0 ∧ target = 0)) ∧
    ((TWI.begin d target addr twi).1 = false →
      (TWI.begin d target addr twi).2.TWAR = twi.TWAR ∧
      (TWI.begin d target addr twi).2.TWBR = twi.TWBR ∧
      (TWI.begin d target addr twi).2.TWCR = twi.TWCR ∧
      (TWI.begin d target addr twi).2.TWSR = twi.TWSR ∧
      (TWI.begin d target addr twi).2.PORTC = twi.PORTC ∧
      (TWI.begin d target addr twi).2.TWDR = twi.TWDR ∧
      (TWI.begin d target addr twi).2.cmdOut = twi.cmdOut ∧
      (TWI.begin d target addr twi).2.dataOut = twi.dataOut) ∧
    ((TWI.begin d target addr twi).1 = true →
      (TWI.begin d target addr twi).2.TWCR = Cmd.IDLE_CMD ∧
      (TWI.begin d target addr twi).2.cmdOut = twi.cmdOut ++ [Cmd.IDLE_CMD] ∧
      (addr ≠ 0 → (TWI.begin d target addr twi).2.TWAR = addr)) := by
  by_cases ha : addr = 0 <;> by_cases ht : target = 0 <;>
    simp [TWI.begin, TWI.setTWCR, ha, ht]

/-! ### Auxiliary lemmas: memory reads, runs, controller-transmit -/

theorem bytesAt_length (mem : Nat → Nat) (n : Nat) : ∀ p, (bytesAt mem p n).length = n := by
  induction n with
  | zero => intro p; rfl
  | succ n ih => intro p; simp [bytesAt, ih]

theorem bytesAt_succ (mem : Nat → Nat) (p n : Nat) :
    bytesAt mem p (n + 1) = mem p :: bytesAt mem (p + 1) n := rfl

theorem run_append (d : Decl) (a b : List BusEvent) :
    ∀ s, run d (a ++ b) s = run d b (run d a s) := by
  induction a with
  | nil => intro s; rfl
  | cons e es ih => intro s; simp [run, ih]

theorem MTSent_step (d : Decl) (e : BusEvent) (s : TWI) (he : isMTAck e)
    (h : s.m_next < s.m_last) : MTSent 1 s (e.deliver d s) := by
  obtain ⟨st, dat⟩ := e
  obtain ⟨hs, hd⟩ := he
  simp only at hs hd
  subst hd
  have hne : s.m_next ≠ s.m_last := Nat.ne_of_lt h
  rcases hs with h1 | h1 <;> subst h1 <;>
    simp [MTSent, BusEvent.deliver, TWI_vect, TWI.setTWCR, TWI.setTWDR, bytesAt, countAfter,
      hne, h]

theorem isMTAck_sla : isMTAck (ev Status.MT_SLA_ACK) := by
  simp [isMTAck, ev]

theorem isMTAck_data : isMTAck (ev Status.MT_DATA_ACK) := by
  simp [isMTAck, ev]

theorem isMTAck_ackList (n : Nat) :
    ∀ e ∈ ev Status.MT_SLA_ACK :: List.replicate n (ev Status.MT_DATA_ACK), isMTAck e := by
  intro e he
  rcases List.mem_cons.mp he with h | h
  · rw [h]; exact isMTAck_sla
  · rw [List.eq_of_mem_replicate h]; exact isMTAck_data

theorem MT_advance_send (d : Decl) (e : BusEvent) (s : TWI) (he : isMTAck e)
    (h : s.m_next = s.m_last) (hsz : 0 < (s.m_vec (s.m_ix + 1)).size) :
    MTSent 1 s.nextSegment (e.deliver d s) := by
  obtain ⟨st, dat⟩ := e
  obtain ⟨hs, hd⟩ := he
  simp only at hs hd
  subst hd
  rcases hs with h1 | h1 <;> subst h1 <;>
    simp [MTSent, BusEvent.deliver, TWI_vect, TWI.setTWCR, TWI.setTWDR, bytesAt, countAfter,
      h, hsz, TWI.nextSegment]

theorem MT_advance_stop (d : Decl) (e : BusEvent) (s : TWI) (he : isMTAck e)
    (h : s.m_next = s.m_last) (hsz : (s.m_vec (s.m_ix + 1)).size = 0) :
    (e.deliver d s).m_state = State.IDLE_STATE ∧
    (e.deliver d s).m_count = s.m_count ∧
    (e.deliver d s).dataOut = s.dataOut ∧
    (e.deliver d s).cmdOut = s.cmdOut ++ [Cmd.STOP_CMD] ∧
    (e.deliver d s).TWCR = Cmd.STOP_CMD ∧
    (e.deliver d s).mem = s.mem ∧
    (e.deliver d s).m_vec = s.m_vec ∧
    (e.deliver d s).m_ix = s.m_ix + 1 ∧
    (e.deliver d s).queue = s.queue := by
  obtain ⟨st, dat⟩ := e
  obtain ⟨hs, hd⟩ := he
  simp only at hs hd
  subst hd
  rcases hs with h1 | h1 <;> subst h1 <;>
    simp [BusEvent.deliver, TWI_vect, TWI_vect.MT_DATA_NACK, TWI.setTWCR, h, hsz]

theorem START_step (d : Decl) (s : TWI) :
    ((ev Status.START).deliver d s).m_next = s.m_next ∧
    ((ev Status.START).deliver d s).m_last = s.m_last ∧
    ((ev Status.START).deliver d s).m_ix = s.m_ix ∧
    ((ev Status.START).deliver d s).m_vec = s.m_vec ∧
    ((ev Status.START).deliver d s).mem = s.mem ∧
    ((ev Status.START).deliver d s).m_count = s.m_count ∧
    ((ev Status.START).deliver d s).m_state = s.m_state ∧
    ((ev Status.START).deliver d s).dataOut = s.dataOut ++ [s.m_addr] ∧
    ((ev Status.START).deliver d s).cmdOut = s.cmdOut ++ [Cmd.DATA_CMD] ∧
    ((ev Status.START).deliver d s).TWCR = Cmd.DATA_CMD ∧
    ((ev Status.START).deliver d s).queue = s.queue := by
  simp [BusEvent.deliver, ev, TWI_vect, TWI.setTWCR, TWI.setTWDR]

theorem await_active_cons (d : Decl) (e : BusEvent) (es : List BusEvent) (s : TWI)
    (h : s.active) :
    TWI.await_completed d (e :: es) s = TWI.await_completed d es (e.deliver d s) := by
  unfold TWI.active at h
  simp [TWI.await_completed, h]

theorem await_done (d : Decl) (es : List BusEvent) (s : TWI) (h : ¬ s.active) :
    TWI.await_completed d es s = some (s.m_count, s) := by
  unfold TWI.active at h
  cases es <;> simp [TWI.await_completed, h]

theorem request_active (d : Decl) (addr : Nat) (twi : TWI) :
    (TWI.request d addr twi).2.active := by
  by_cases hw : addr &&& d.WRITE_OP = 0 <;>
    simp [TWI.active, TWI.request, TWI.setTWCR, State.toNat, hw]

theorem MR_DATA_ACK_step (d : Decl) (b : Nat) (s : TWI) :
    ((rx Status.MR_DATA_ACK b).deliver d s).m_next = s.m_next + 1 ∧
    ((rx Status.MR_DATA_ACK b).deliver d s).m_last = s.m_last ∧
    ((rx Status.MR_DATA_ACK b).deliver d s).mem = upd s.mem s.m_next b ∧
    ((rx Status.MR_DATA_ACK b).deliver d s).m_count = int16 (s.m_count + 1) ∧
    ((rx Status.MR_DATA_ACK b).deliver d s).m_state = s.m_state ∧
    ((rx Status.MR_DATA_ACK b).deliver d s).TWCR
      = (if s.m_next + 1 < ptr_pred s.m_last then Cmd.ACK_CMD else Cmd.NACK_CMD) ∧
    ((rx Status.MR_DATA_ACK b).deliver d s).cmdOut
      = s.cmdOut ++ [if s.m_next + 1 < ptr_pred s.m_last then Cmd.ACK_CMD else Cmd.NACK_CMD] ∧
    ((rx Status.MR_DATA_ACK b).deliver d s).dataOut = s.dataOut := by
  simp [BusEvent.deliver, rx, TWI_vect, TWI_vect.MR_SLA_ACK, TWI.setTWCR]

theorem MR_DATA_NACK_step (d : Decl) (b : Nat) (s : TWI) :
    ((rx Status.MR_DATA_NACK b).deliver d s).m_next = s.m_next + 1 ∧
    ((rx Status.MR_DATA_NACK b).deliver d s).m_last = s.m_last ∧
    ((rx Status.MR_DATA_NACK b).deliver d s).mem = upd s.mem s.m_next b ∧
    ((rx Status.MR_DATA_NACK b).deliver d s).m_count = int16 (s.m_count + 1) ∧
    ((rx Status.MR_DATA_NACK b).deliver d s).m_state = State.IDLE_STATE ∧
    ((rx Status.MR_DATA_NACK b).deliver d s).TWCR = Cmd.STOP_CMD ∧
    ((rx Status.MR_DATA_NACK b).deliver d s).cmdOut = s.cmdOut ++ [Cmd.STOP_CMD] ∧
    ((rx Status.MR_DATA_NACK b).deliver d s).dataOut = s.dataOut ∧
    ((rx Status.MR_DATA_NACK b).deliver d s).m_status = Status.MR_DATA_NACK := by
  simp [BusEvent.deliver, rx, TWI_vect, TWI.setTWCR]

/-- Data phase of a controller-receive transaction with `rem` bytes of room
left (`rem ≥ 1`) in a buffer inside the data space, the pending command being
ACK iff more than one byte of room remains, against a target that offers at
least `rem` bytes. -/
theorem mr_target_spec (d : Decl) :
    ∀ (offer : List Nat) (rem : Nat) (s : TWI), 1 ≤ rem → rem ≤ offer.length →
      s.m_next + rem = s.m_last → s.m_last ≤ 65536 →
      s.TWCR = (if 1 < rem then Cmd.ACK_CMD else Cmd.NACK_CMD) →
      (mr_target d offer s).m_state = State.IDLE_STATE ∧
      (mr_target d offer s).m_count = countAfter s.m_count rem ∧
      bytesAt (mr_target d offer s).mem s.m_next rem = offer.take rem ∧
      (∀ a, a < s.m_next ∨ s.m_next + rem ≤ a → (mr_target d offer s).mem a = s.mem a) ∧
      (∃ added, (mr_target d offer s).cmdOut = s.cmdOut ++ added ∧
        s.TWCR :: added
          = List.replicate (rem - 1) Cmd.ACK_CMD ++ [Cmd.NACK_CMD, Cmd.STOP_CMD]) ∧
      (mr_target d offer s).dataOut = s.dataOut ∧
      (mr_target d offer s).m_status = Status.MR_DATA_NACK ∧
      (mr_target d offer s).TWCR = Cmd.STOP_CMD := by
  intro offer
  induction offer with
  | nil => intro rem s h1 h2; simp at h2; omega
  | cons b rest ih =>
    intro rem s h1 h2 hlen hsp hcr
    simp only [List.length_cons] at h2
    rcases Nat.lt_or_ge 1 rem with hgt | hle
    · -- more than one byte of room: the pending command is ACK
      obtain ⟨k, rfl⟩ : ∃ k, rem = k + 2 := ⟨rem - 2, by omega⟩
      rw [if_pos hgt] at hcr
      obtain ⟨a1, a2, a3, a4, a5, a6, a7, a8⟩ := MR_DATA_ACK_step d b s
      have hpp : ptr_pred s.m_last = s.m_last - 1 := ptr_pred_of_range _ (by omega) hsp
      have hcmd : (if s.m_next + 1 < ptr_pred s.m_last then Cmd.ACK_CMD else Cmd.NACK_CMD)
          = (if 1 < k + 1 then Cmd.ACK_CMD else Cmd.NACK_CMD) := by
        rw [hpp]
        by_cases hk : 1 < k + 1
        · rw [if_pos hk, if_pos (by omega)]
        · rw [if_neg hk, if_neg (by omega)]
      have hstep : mr_target d (b :: rest) s
          = mr_target d rest ((rx Status.MR_DATA_ACK b).deliver d s) := by
        simp [mr_target, hcr]
      obtain ⟨i1, i2, i3, i4, ⟨added, i5, i6⟩, i7, i8, i9⟩ :=
        ih (k + 1) ((rx Status.MR_DATA_ACK b).deliver d s) (by omega) (by omega)
          (by rw [a1, a2]; omega) (by rw [a2]; exact hsp) (by rw [a6, hcmd])
      rw [hstep]
      rw [a1] at i3 i4
      refine ⟨i1, ?_, ?_, ?_, ?_, ?_, i8, i9⟩
      · rw [i2, a4]; rfl
      · have h0 : (mr_target d rest ((rx Status.MR_DATA_ACK b).deliver d s)).mem s.m_next = b := by
          rw [i4 s.m_next (Or.inl (by omega)), a3]; simp [upd]
        show bytesAt _ s.m_next (k + 1 + 1) = List.take (k + 1 + 1) (b :: rest)
        rw [bytesAt_succ, h0, i3, List.take_succ_cons]
      · intro a ha
        rw [i4 a (by omega), a3]
        have : a ≠ s.m_next := by omega
        simp [upd, this]
      · refine ⟨(if s.m_next + 1 < ptr_pred s.m_last then Cmd.ACK_CMD else Cmd.NACK_CMD)
          :: added, ?_, ?_⟩
        · rw [i5, a7]; simp
        · rw [hcr, ← a6, i6]
          have : k + 2 - 1 = (k + 1 - 1) + 1 := by omega
          rw [this, List.replicate_succ]
          rfl
      · rw [i7, a8]
    · -- exactly one byte of room: the pending command is NACK
      have hrem : rem = 1 := by omega
      subst hrem
      rw [if_neg (by omega)] at hcr
      obtain ⟨a1, a2, a3, a4, a5, a6, a7, a8, a9⟩ := MR_DATA_NACK_step d b s
      have hstep : mr_target d (b :: rest) s = (rx Status.MR_DATA_NACK b).deliver d s := by
        simp [mr_target, hcr]
      rw [hstep]
      refine ⟨a5, ?_, ?_, ?_, ?_, a8, a9, a6⟩
      · rw [a4]; rfl
      · simp [bytesAt, a3, upd]
      · intro a ha
        rw [a3]
        have : a ≠ s.m_next := by omega
        simp [upd, this]
      · exact ⟨[Cmd.STOP_CMD], a7, by rw [hcr]; rfl⟩

theorem read_request_addressed (d : Decl) (addr buf n : Nat) (twi : TWI) :
    (run d [ev Status.START, ev Status.MR_SLA_ACK]
      (TWI.read_request d addr buf n twi).2).m_next = buf ∧
    (run d [ev Status.START, ev Status.MR_SLA_ACK]
      (TWI.read_request d addr buf n twi).2).m_last = buf + n ∧
    (run d [ev Status.START, ev Status.MR_SLA_ACK]
      (TWI.read_request d addr buf n twi).2).m_count = 0 ∧
    (run d [ev Status.START, ev Status.MR_SLA_ACK]
      (TWI.read_request d addr buf n twi).2).mem = twi.mem ∧
    (run d [ev Status.START, ev Status.MR_SLA_ACK]
      (TWI.read_request d addr buf n twi).2).TWCR
      = (if buf < ptr_pred (buf + n) then Cmd.ACK_CMD else Cmd.NACK_CMD) ∧
    (run d [ev Status.START, ev Status.MR_SLA_ACK]
      (TWI.read_request d addr buf n twi).2).cmdOut
      = twi.cmdOut ++ [Cmd.START_CMD, Cmd.DATA_CMD,
          if buf < ptr_pred (buf + n) then Cmd.ACK_CMD else Cmd.NACK_CMD] := by
  simp [run, BusEvent.deliver, ev, TWI.read_request, iovec_arg, iovec_end, TWI.request,
    TWI_vect, TWI_vect.MR_SLA_ACK, TWI.setTWCR, TWI.setTWDR, upd]

/-- A whole controller-receive transaction into a buffer of `n ≥ 1` bytes
inside the data space, against a target that offers at least `n` bytes. -/
theorem read_transfer_run (d : Decl) (addr buf n : Nat) (offer : List Nat)
    (twi : TWI) (hn : 1 ≤ n) (hoff : n ≤ offer.length) (hspace : buf + n ≤ 65536) :
    (read_transfer d addr buf n offer twi).m_count = int16 n ∧
    (read_transfer d addr buf n offer twi).m_state = State.IDLE_STATE ∧
    (read_transfer d addr buf n offer twi).m_status = Status.MR_DATA_NACK ∧
    bytesAt (read_transfer d addr buf n offer twi).mem buf n = offer.take n ∧
    (∀ a, a < buf ∨ buf + n ≤ a → (read_transfer d addr buf n offer twi).mem a = twi.mem a) ∧
    (read_transfer d addr buf n offer twi).cmdOut
      = twi.cmdOut ++ [Cmd.START_CMD, Cmd.DATA_CMD] ++ List.replicate (n - 1) Cmd.ACK_CMD
          ++ [Cmd.NACK_CMD, Cmd.STOP_CMD] := by
  obtain ⟨q1, q2, q3, q4, q5, q6⟩ := read_request_addressed d addr buf n twi
  have hpp : ptr_pred (buf + n) = buf + n - 1 := ptr_pred_of_range _ (by omega) hspace
  have hcmd : (if buf < ptr_pred (buf + n) then Cmd.ACK_CMD else Cmd.NACK_CMD)
      = (if 1 < n then Cmd.ACK_CMD else Cmd.NACK_CMD) := by
    rw [hpp]
    by_cases h : 1 < n
    · rw [if_pos h, if_pos (by omega)]
    · rw [if_neg h, if_neg (by omega)]
  rw [hcmd] at q5 q6
  unfold read_transfer
  generalize run d [ev Status.START, ev Status.MR_SLA_ACK]
    (TWI.read_request d addr buf n twi).2 = s2 at *
  obtain ⟨i1, i2, i3, i4, ⟨added, i5, i6⟩, i7, i8, i9⟩ :=
    mr_target_spec d offer n s2 hn hoff (by rw [q1, q2]) (by rw [q2]; exact hspace) q5
  rw [q1] at i3 i4
  refine ⟨?_, i1, i8, i3, ?_, ?_⟩
  · rw [i2, q3, countAfter_start]
  · intro a ha
    rw [i4 a ha, q4]
  · rw [i5, q6, ← q5]
    have : twi.cmdOut ++ [Cmd.START_CMD, Cmd.DATA_CMD, s2.TWCR] ++ added
        = twi.cmdOut ++ [Cmd.START_CMD, Cmd.DATA_CMD] ++ (s2.TWCR :: added) := by simp
    rw [this, i6]
    simp only [List.append_assoc]

/-- C4 (counterexample): `read_request(0x50, buf, 32768)` with the buffer at
address 100, against a target that sends 32768 bytes: the transaction ends on
MR_DATA_NACK in lifecycle IDLE with `m_count = -32768`, not n = 32768. -/
theorem C4_count_wraps_at_32768 :
    (read_transfer Decl.atmega328p 0x50 100 32768 (List.replicate 32768 0xAB)
      (TWI.reset 50)).m_count = -32768 ∧
    (read_transfer Decl.atmega328p 0x50 100 32768 (List.replicate 32768 0xAB)
      (TWI.reset 50)).m_state = State.IDLE_STATE ∧
    (read_transfer Decl.atmega328p 0x50 100 32768 (List.replicate 32768 0xAB)
      (TWI.reset 50)).m_status = Status.MR_DATA_NACK := by
  obtain ⟨r1, r2, r3, r4, r5, r6⟩ := read_transfer_run Decl.atmega328p 0x50 100 32768
    (List.replicate 32768 0xAB) (TWI.reset 50) (by omega)
    (by rw [List.length_replicate]) (by omega)
  have hv : int16 ((32768 : Nat) : Int) = -32768 := by
    unfold int16
    omega
  rw [hv] at r1
  exact ⟨r1, r2, r3⟩

/-- C4 (amended): after `read_request` with a buffer of `n ≥ 1` bytes (lying
inside the data space), against a target that keeps sending (at least `n`
bytes on offer), the handler requests ACK for each of the first `n - 1`
incoming bytes and NACK for the `n`-th, stores the first `n` offered bytes in
the buffer in arrival order and nothing outside it, and ends on MR_DATA_NACK
with a STOP and lifecycle IDLE. For `n` within the range of the signed counter
(`n ≤ 32767`), `m_count = n`; for every `n` the counter holds `n` as a 16-bit
signed value. On MR_SLA_ACK and after each MR_DATA_ACK the command written is
ACK iff more than one byte of room remains before the (non-null) limit. -/
theorem C4_read_request_nacks_last_byte (d : Decl) (addr buf n : Nat) (offer : List Nat)
    (twi : TWI) (hn : 1 ≤ n) (hoff : n ≤ offer.length) (hspace : buf + n ≤ 65536) :
    (read_transfer d addr buf n offer twi).m_count = int16 n ∧
    (n ≤ 32767 → (read_transfer d addr buf n offer twi).m_count = n) ∧
    (read_transfer d addr buf n offer twi).m_state = State.IDLE_STATE ∧
    (read_transfer d addr buf n offer twi).m_status = Status.MR_DATA_NACK ∧
    bytesAt (read_transfer d addr buf n offer twi).mem buf n = offer.take n ∧
    (∀ a, a < buf ∨ buf + n ≤ a → (read_transfer d addr buf n offer twi).mem a = twi.mem a) ∧
    (read_transfer d addr buf n offer twi).cmdOut
      = twi.cmdOut ++ [Cmd.START_CMD, Cmd.DATA_CMD] ++ List.replicate (n - 1) Cmd.ACK_CMD
          ++ [Cmd.NACK_CMD, Cmd.STOP_CMD] ∧
    (∀ s : TWI, 1 ≤ s.m_last → s.m_last ≤ 65536 →
      (TWI_vect d Status.MR_SLA_ACK s).TWCR
        = (if s.m_next + 1 < s.m_last then Cmd.ACK_CMD else Cmd.NACK_CMD)) ∧
    (∀ s : TWI, 1 ≤ s.m_last → s.m_last ≤ 65536 →
      (TWI_vect d Status.MR_DATA_ACK s).TWCR
        = (if s.m_next + 1 + 1 < s.m_last then Cmd.ACK_CMD else Cmd.NACK_CMD)) := by
  obtain ⟨r1, r2, r3, r4, r5, r6⟩ := read_transfer_run d addr buf n offer twi hn hoff hspace
  refine ⟨r1, ?_, r2, r3, r4, r5, r6, ?_, ?_⟩
  · intro hr
    rw [r1]
    exact int16_of_range _ (by omega) (by omega)
  · intro s h1 h2
    have hpp : ptr_pred s.m_last = s.m_last - 1 := ptr_pred_of_range _ h1 h2
    simp only [TWI_vect, TWI_vect.MR_SLA_ACK, TWI.setTWCR, hpp]
    by_cases h : s.m_next + 1 < s.m_last
    · rw [if_pos h, if_pos (by omega)]
    · rw [if_neg h, if_neg (by omega)]
  · intro s h1 h2
    have hpp : ptr_pred s.m_last = s.m_last - 1 := ptr_pred_of_range _ h1 h2
    simp only [TWI_vect, TWI_vect.MR_SLA_ACK, TWI.setTWCR, hpp]
    by_cases h : s.m_next + 1 + 1 < s.m_last
    · rw [if_pos h, if_pos (by omega)]
    · rw [if_neg h, if_neg (by omega)]

/-- C4 (witness): a 3-byte buffer at address 100 against a target offering 5
bytes: `m_count = 3`, the three first bytes are stored, the byte after the
buffer is untouched, and the commands are START, DATA, ACK, ACK, NACK (for
the 3rd byte), STOP. -/
theorem C4_three_byte_buffer_five_offered :
    (read_transfer Decl.atmega328p 0x50 100 3 [0xA1, 0xA2, 0xA3, 0xA4, 0xA5]
      (TWI.reset 50)).m_count = 3 ∧
    (read_transfer Decl.atmega328p 0x50 100 3 [0xA1, 0xA2, 0xA3, 0xA4, 0xA5]
      (TWI.reset 50)).m_state = State.IDLE_STATE ∧
    bytesAt (read_transfer Decl.atmega328p 0x50 100 3 [0xA1, 0xA2, 0xA3, 0xA4, 0xA5]
      (TWI.reset 50)).mem 100 4 = [0xA1, 0xA2, 0xA3, 0] ∧
    (read_transfer Decl.atmega328p 0x50 100 3 [0xA1, 0xA2, 0xA3, 0xA4, 0xA5]
      (TWI.reset 50)).cmdOut
      = [Cmd.START_CMD, Cmd.DATA_CMD, Cmd.ACK_CMD, Cmd.ACK_CMD, Cmd.NACK_CMD,
          Cmd.STOP_CMD] := by
  have h := C4_read_request_nacks_last_byte Decl.atmega328p 0x50 100 3
    [0xA1, 0xA2, 0xA3, 0xA4, 0xA5] (TWI.reset 50) (by decide) (by decide) (by decide)
  exact ⟨h.2.1 (by decide), h.2.2.1, by decide, h.2.2.2.2.2.2.1.trans (by decide)⟩

/-! ### Auxiliary lemmas: target-transmit -/

/-- C6 (code at the failing input): WRITE buffer of capacity 4 installed by
`set_write_buf`, READ buffer of 2 bytes, controller write of K = 3 bytes
(SR_SLA_ACK, three SR_DATA_ACK, SR_STOP). One WRITE_COMPLETED event is posted,
to the notify target 7, but it carries byte count 2, not 3: the handler took
its limit from the READ slot and requested NACK for the third byte. -/
theorem C6_write_completed_count_from_read_slot :
    (node.m_vec Decl.atmega328p.WRITE_IX) = ⟨100, 4⟩ ∧
    (run Decl.atmega328p
      [ev Status.SR_SLA_ACK, rx Status.SR_DATA_ACK 0xA1, rx Status.SR_DATA_ACK 0xA2,
        rx Status.SR_DATA_ACK 0xA3, ev Status.SR_STOP] node).queue
      = [⟨EventType.WRITE_COMPLETED_TYPE, 7, 2⟩] ∧
    (run Decl.atmega328p
      [ev Status.SR_SLA_ACK, rx Status.SR_DATA_ACK 0xA1, rx Status.SR_DATA_ACK 0xA2,
        rx Status.SR_DATA_ACK 0xA3, ev Status.SR_STOP] node).cmdOut
      = [Cmd.IDLE_CMD, Cmd.ACK_CMD, Cmd.ACK_CMD, Cmd.ACK_CMD, Cmd.NACK_CMD, Cmd.STOP_CMD] ∧
    (run Decl.atmega328p
      [ev Status.SR_SLA_ACK, rx Status.SR_DATA_ACK 0xA1, rx Status.SR_DATA_ACK 0xA2,
        rx Status.SR_DATA_ACK 0xA3, ev Status.SR_STOP] node).m_state = State.IDLE_STATE ∧
    (run Decl.atmega328p
      [ev Status.SR_SLA_ACK, rx Status.SR_DATA_ACK 0xA1, rx Status.SR_DATA_ACK 0xA2,
        rx Status.SR_DATA_ACK 0xA3, ev Status.SR_STOP] node).TWAR = 0 := by
  decide

/-- C8 (code at the failing input): on target-receive selection the handler
puts cursor and limit on the READ slot of the vector, for every state and every
selection status. On the node with WRITE buffer at 100 and READ buffer at 200,
after a controller write of the bytes 0xA1, 0xA2, `on_event` hands the buffer at
100 with size 2 to `on_request`, but that buffer still holds 0, 0: the received
bytes have overwritten the READ buffer at 200. -/
theorem C8_target_receive_fills_read_slot :
    (∀ (d : Decl) (twi : TWI) (st : Status),
      st = Status.SR_SLA_ACK ∨ st = Status.SR_GCALL_ACK ∨ st = Status.SR_ARB_LOST_SLA_ACK ∨
        st = Status.SR_ARB_LOST_GCALL_ACK →
      (TWI_vect d st twi).m_next = (twi.m_vec d.READ_IX).buf ∧
      (TWI_vect d st twi).m_last = (twi.m_vec d.READ_IX).buf + (twi.m_vec d.READ_IX).size) ∧
    (TWI.Device.on_event Decl.atmega328p probe EventType.WRITE_COMPLETED_TYPE 2
      (run Decl.atmega328p
        [ev Status.SR_SLA_ACK, rx Status.SR_DATA_ACK 0xA1, rx Status.SR_DATA_ACK 0xA2,
          ev Status.SR_STOP] node)).queue
      = [⟨EventType.WRITE_COMPLETED_TYPE, 7, 2⟩, ⟨EventType.OTHER_TYPE 0, 100, 2⟩] ∧
    bytesAt (TWI.Device.on_event Decl.atmega328p probe EventType.WRITE_COMPLETED_TYPE 2
      (run Decl.atmega328p
        [ev Status.SR_SLA_ACK, rx Status.SR_DATA_ACK 0xA1, rx Status.SR_DATA_ACK 0xA2,
          ev Status.SR_STOP] node)).mem 100 2 = [0, 0] ∧
    bytesAt node.mem 200 2 = [0x11, 0x22] ∧
    bytesAt (TWI.Device.on_event Decl.atmega328p probe EventType.WRITE_COMPLETED_TYPE 2
      (run Decl.atmega328p
        [ev Status.SR_SLA_ACK, rx Status.SR_DATA_ACK 0xA1, rx Status.SR_DATA_ACK 0xA2,
          ev Status.SR_STOP] node)).mem 200 2 = [0xA1, 0xA2] := by
  refine ⟨?_, by decide, by decide, by decide, by decide⟩
  rintro d twi st (h | h | h | h) <;> subst h <;> simp [TWI_vect, TWI.setTWCR]

/-- C11: from every state `end()` returns true, clears the notify target and
zeroes the command register and the address filter; it is idempotent: the
program state after `end()` twice equals the program state after `end()`
once. -/
theorem C11_end_idempotent (twi : TWI) :
    (TWI.end twi).1 = true ∧
    (TWI.end twi).2.m_target = 0 ∧
    (TWI.end twi).2.TWCR = Cmd.RAW 0 ∧
    (TWI.end twi).2.TWAR = 0 ∧
    (TWI.end (TWI.end twi).2).1 = (TWI.end twi).1 ∧
    (TWI.end (TWI.end twi).2).2.program = (TWI.end twi).2.program := by
  simp [TWI.end, TWI.setTWCR, TWI.program]

/-! ### Auxiliary lemmas: port bits -/

theorem bit_set_pair_idem (p a b : Nat) :
    bit_set (bit_set (bit_set (bit_set p a) b) a) b = bit_set (bit_set p a) b := by
  unfold bit_set
  apply Nat.eq_of_testBit_eq
  intro i
  simp only [Nat.testBit_or]
  cases p.testBit i <;> cases ((1 <<< a) % 256).testBit i <;>
    cases ((1 <<< b) % 256).testBit i <;> rfl

theorem bit_clear_pair_idem (p a b : Nat) :
    bit_clear (bit_clear (bit_clear (bit_clear p a) b) a) b = bit_clear (bit_clear p a) b := by
  unfold bit_clear
  apply Nat.eq_of_testBit_eq
  intro i
  simp only [Nat.testBit_and]
  cases p.testBit i <;> cases (255 - (1 <<< a) % 256).testBit i <;>
    cases (255 - (1 <<< b) % 256).testBit i <;> rfl

/-- C12: for every state and every argument pair, `begin(target, addr)` called
twice in a row returns the same value as called once and leaves the same
program state: notify target, address, address filter, pull-up bits,
prescaler bits, clock divider and command register, and every other member. -/
theorem C12_begin_twice (d : Decl) (target addr : Nat) (twi : TWI) :
    (TWI.begin d target addr (TWI.begin d target addr twi).2).1
      = (TWI.begin d target addr twi).1 ∧
    (TWI.begin d target addr (TWI.begin d target addr twi).2).2.program
      = (TWI.begin d target addr twi).2.program ∧
    (TWI.begin d target addr (TWI.begin d target addr twi).2).2.m_target
      = (TWI.begin d target addr twi).2.m_target ∧
    (TWI.begin d target addr (TWI.begin d target addr twi).2).2.m_addr
      = (TWI.begin d target addr twi).2.m_addr ∧
    (TWI.begin d target addr (TWI.begin d target addr twi).2).2.TWAR
      = (TWI.begin d target addr twi).2.TWAR ∧
    (TWI.begin d target addr (TWI.begin d target addr twi).2).2.PORTC
      = (TWI.begin d target addr twi).2.PORTC ∧
    (TWI.begin d target addr (TWI.begin d target addr twi).2).2.TWSR
      = (TWI.begin d target addr twi).2.TWSR ∧
    (TWI.begin d target addr (TWI.begin d target addr twi).2).2.TWBR
      = (TWI.begin d target addr twi).2.TWBR ∧
    (TWI.begin d target addr (TWI.begin d target addr twi).2).2.TWCR
      = (TWI.begin d target addr twi).2.TWCR := by
  by_cases ha : addr = 0 <;> by_cases ht : target = 0 <;>
    simp [TWI.begin, TWI.setTWCR, TWI.program, ha, ht, bit_set_pair_idem,
      bit_clear_pair_idem]

/-! ### Requests: role, priming, header encoding, vector -/

theorem or_and_self_right (w r : Nat) : (w ||| r) &&& w = w := by
  apply Nat.eq_of_testBit_eq
  intro i
  simp only [Nat.testBit_and, Nat.testBit_or]
  cases w.testBit i <;> cases r.testBit i <;> rfl

/-- C13 (code at the failing input): `request` sets the role by the test
`addr & WRITE_OP`, and every request variant passes `addr | WRITE_OP` or
`addr | READ_OP`. With the bus convention for the direction bit (WRITE_OP = 0)
the test is never true, so the role is MR_STATE after every `write_request`
variant, for instance after `write_request(0x3E, buf, 1)`. For no value of the
constants is the role MT_STATE after every `write_request` and MR_STATE after
every `read_request`. -/
theorem C13_role_test_uses_write_op :
    (∀ (d : Decl) (addr : Nat) (twi : TWI),
      (TWI.request d addr twi).2.m_state
        = (if addr &&& d.WRITE_OP ≠ 0 then State.MT_STATE else State.MR_STATE)) ∧
    (∀ (d : Decl) (addr h buf size : Nat) (twi : TWI), d.WRITE_OP = 0 →
      (TWI.write_request d addr buf size twi).2.m_state = State.MR_STATE ∧
      (TWI.write_request8 d addr h buf size twi).2.m_state = State.MR_STATE ∧
      (TWI.write_request16 d addr h buf size twi).2.m_state = State.MR_STATE ∧
      (TWI.read_request d addr buf size twi).2.m_state = State.MR_STATE) ∧
    (TWI.write_request Decl.atmega328p 0x3E 100 1 lcd_twi).2.m_state = State.MR_STATE ∧
    (∀ d : Decl, ¬ ((∀ (addr buf size : Nat) (twi : TWI),
        (TWI.write_request d addr buf size twi).2.m_state = State.MT_STATE) ∧
      (∀ (addr buf size : Nat) (twi : TWI),
        (TWI.read_request d addr buf size twi).2.m_state = State.MR_STATE))) := by
  refine ⟨?_, ?_, by decide, ?_⟩
  · intro d addr twi
    simp [TWI.request, TWI.setTWCR]
  · intro d addr h buf size twi hw
    simp [TWI.write_request, TWI.write_request8, TWI.write_request16, TWI.read_request,
      iovec_arg, iovec_end, TWI.request, TWI.setTWCR, hw]
  · rintro d ⟨hwr, hrd⟩
    by_cases hw : d.WRITE_OP = 0
    · have h := hwr 0 0 0 (TWI.reset 0)
      simp [TWI.write_request, iovec_arg, iovec_end, TWI.request, TWI.setTWCR, hw] at h
    · have h := hrd d.WRITE_OP 0 0 (TWI.reset 0)
      simp [TWI.read_request, iovec_arg, iovec_end, TWI.request, TWI.setTWCR,
        or_and_self_right, hw] at h

/-- C14: from a state with no transaction in flight, `request(addr)` returns
true, stores `addr` as the address byte, sets the cursor to the start of
segment 0 of the vector and the limit to its end, sets the segment index and
`m_count` to 0 and `m_status` to NO_INFO, writes START to the command register
(once) and leaves the vector, the memory and the event queue unchanged. -/
theorem C14_request_primes_idle_controller (d : Decl) (addr : Nat) (twi : TWI)
    (hidle : ¬ twi.active) :
    ¬ twi.active ∧
    (TWI.request d addr twi).1 = true ∧
    (TWI.request d addr twi).2.m_addr = addr ∧
    (TWI.request d addr twi).2.m_next = (twi.m_vec 0).buf ∧
    (TWI.request d addr twi).2.m_last = (twi.m_vec 0).buf + (twi.m_vec 0).size ∧
    (TWI.request d addr twi).2.m_ix = 0 ∧
    (TWI.request d addr twi).2.m_count = 0 ∧
    (TWI.request d addr twi).2.m_status = Status.NO_INFO ∧
    (TWI.request d addr twi).2.TWCR = Cmd.START_CMD ∧
    (TWI.request d addr twi).2.cmdOut = twi.cmdOut ++ [Cmd.START_CMD] ∧
    (TWI.request d addr twi).2.m_vec = twi.m_vec ∧
    (TWI.request d addr twi).2.mem = twi.mem ∧
    (TWI.request d addr twi).2.queue = twi.queue := by
  refine ⟨hidle, ?_⟩
  simp [TWI.request, TWI.setTWCR]

/-- C14 (witness): `request(0x7C)` on the power-on controller, which is idle. -/
theorem C14_request_on_reset_controller :
    (TWI.request Decl.atmega328p 0x7C (TWI.reset 50)).1 = true ∧
    (TWI.request Decl.atmega328p 0x7C (TWI.reset 50)).2.m_addr = 0x7C ∧
    (TWI.request Decl.atmega328p 0x7C (TWI.reset 50)).2.m_count = 0 ∧
    (TWI.request Decl.atmega328p 0x7C (TWI.reset 50)).2.TWCR = Cmd.START_CMD := by
  have h := C14_request_primes_idle_controller Decl.atmega328p 0x7C (TWI.reset 50)
    (by unfold TWI.active; decide)
  exact ⟨h.2.1, h.2.2.1, h.2.2.2.2.2.2.1, h.2.2.2.2.2.2.2.2.1⟩

/-- C15: for every 16-bit header `h`, `write_request(addr, uint16_t h, buf,
size)` makes segment 0 the 2-byte header array holding `h / 256` then
`h mod 256` (most-significant byte first, `256 * byte0 + byte1 = h`); for every
8-bit header `g` the 8-bit variant makes segment 0 the single byte `g`. -/
theorem C15_header_msb_first (d : Decl) (addr h g buf size : Nat) (twi : TWI)
    (hh : h < 65536) (hg : g < 256) :
    (TWI.write_request16 d addr h buf size twi).2.m_vec 0 = ⟨twi.m_header, 2⟩ ∧
    bytesAt (TWI.write_request16 d addr h buf size twi).2.mem twi.m_header 2
      = [h / 256, h % 256] ∧
    256 * (TWI.write_request16 d addr h buf size twi).2.mem twi.m_header
      + (TWI.write_request16 d addr h buf size twi).2.mem (twi.m_header + 1) = h ∧
    (TWI.write_request8 d addr g buf size twi).2.m_vec 0 = ⟨twi.m_header, 1⟩ ∧
    bytesAt (TWI.write_request8 d addr g buf size twi).2.mem twi.m_header 1 = [g] := by
  have hhi : (h >>> 8) % 256 = h / 256 := by
    rw [Nat.shiftRight_eq_div_pow]
    have : h / 2 ^ 8 < 256 := by omega
    omega
  have hgm : g % 256 = g := Nat.mod_eq_of_lt hg
  refine ⟨?_, ?_, ?_, ?_, ?_⟩
  · simp [TWI.write_request16, iovec_arg, iovec_end, TWI.request, TWI.setTWCR, upd]
  · simp [TWI.write_request16, iovec_arg, iovec_end, TWI.request, TWI.setTWCR, upd,
      bytesAt, hhi]
  · simp only [TWI.write_request16, iovec_arg, iovec_end, TWI.request, TWI.setTWCR, upd, hhi]
    simp
    omega
  · simp [TWI.write_request8, iovec_arg, iovec_end, TWI.request, TWI.setTWCR, upd]
  · simp [TWI.write_request8, iovec_arg, iovec_end, TWI.request, TWI.setTWCR, upd,
      bytesAt, hgm]

/-- C15 (witness): header 0x1234 is stored as 0x12, 0x34 and header 0xAB as
the single byte 0xAB. -/
theorem C15_header_0x1234 :
    bytesAt (TWI.write_request16 Decl.atmega328p 0x50 0x1234 100 1 lcd_twi).2.mem
      lcd_twi.m_header 2 = [0x12, 0x34] ∧
    bytesAt (TWI.write_request8 Decl.atmega328p 0x50 0xAB 100 1 lcd_twi).2.mem
      lcd_twi.m_header 1 = [0xAB] := by
  have h := C15_header_msb_first Decl.atmega328p 0x50 0x1234 0xAB 100 1 lcd_twi
    (by decide) (by decide)
  exact ⟨h.2.1.trans (by decide), h.2.2.2.2⟩

/-- C16: after each request function the vector holds the active segments in
order, the optional header segment (the header array, length 1 or 2) and then
`(buf, size)`, immediately followed by the sentinel (null buffer, length 0);
the lengths of the active segments add up to header length plus `size`. -/
theorem C16_vector_sentinel_terminated (d : Decl) (addr h buf size : Nat) (twi : TWI) :
    ((TWI.write_request d addr buf size twi).2.m_vec 0 = ⟨buf, size⟩ ∧
      (TWI.write_request d addr buf size twi).2.m_vec 1 = ⟨0, 0⟩ ∧
      ((TWI.write_request d addr buf size twi).2.m_vec 0).size = 0 + size) ∧
    ((TWI.read_request d addr buf size twi).2.m_vec 0 = ⟨buf, size⟩ ∧
      (TWI.read_request d addr buf size twi).2.m_vec 1 = ⟨0, 0⟩ ∧
      ((TWI.read_request d addr buf size twi).2.m_vec 0).size = 0 + size) ∧
    ((TWI.write_request8 d addr h buf size twi).2.m_vec 0 = ⟨twi.m_header, 1⟩ ∧
      (TWI.write_request8 d addr h buf size twi).2.m_vec 1 = ⟨buf, size⟩ ∧
      (TWI.write_request8 d addr h buf size twi).2.m_vec 2 = ⟨0, 0⟩ ∧
      ((TWI.write_request8 d addr h buf size twi).2.m_vec 0).size
        + ((TWI.write_request8 d addr h buf size twi).2.m_vec 1).size = 1 + size) ∧
    ((TWI.write_request16 d addr h buf size twi).2.m_vec 0 = ⟨twi.m_header, 2⟩ ∧
      (TWI.write_request16 d addr h buf size twi).2.m_vec 1 = ⟨buf, size⟩ ∧
      (TWI.write_request16 d addr h buf size twi).2.m_vec 2 = ⟨0, 0⟩ ∧
      ((TWI.write_request16 d addr h buf size twi).2.m_vec 0).size
        + ((TWI.write_request16 d addr h buf size twi).2.m_vec 1).size = 2 + size) := by
  refine ⟨⟨?_, ?_, ?_⟩, ⟨?_, ?_, ?_⟩, ⟨?_, ?_, ?_, ?_⟩, ⟨?_, ?_, ?_, ?_⟩⟩ <;>
    simp [TWI.write_request, TWI.read_request, TWI.write_request8, TWI.write_request16,
      iovec_arg, iovec_end, TWI.request, TWI.setTWCR, upd]

/-! ### The foreground wait, error kinds, unnamed status values -/

/-- C17: in a state whose lifecycle is IDLE or ERROR, `await_completed`
returns the current `m_count` at once (no call of `Power::sleep`, whatever
interrupts are pending) and the state is unchanged; after an error branch
of the handler the value returned is -1. In a state with an active role it
sleeps: it takes the next interrupt and tests again, and with no interrupt
left it does not return. -/
theorem C17_await_completed_idle_or_error (d : Decl) (evs : List BusEvent) (twi : TWI)
    (h : twi.m_state = State.IDLE_STATE ∨ twi.m_state = State.ERROR_STATE) :
    TWI.await_completed d evs twi = some (twi.m_count, twi) ∧
    TWI.await_sleeps d evs twi = 0 ∧
    (∀ (s : TWI) (st : Status),
      st = Status.ARB_LOST ∨ st = Status.MT_SLA_NACK ∨ st = Status.MR_SLA_NACK ∨
        st = Status.BUS_ERROR →
      TWI.await_completed d evs (TWI_vect d st s) = some (-1, TWI_vect d st s) ∧
      TWI.await_sleeps d evs (TWI_vect d st s) = 0) ∧
    (∀ (s : TWI) (e : BusEvent) (es : List BusEvent),
      (s.m_state = State.MT_STATE ∨ s.m_state = State.MR_STATE ∨
        s.m_state = State.ST_STATE ∨ s.m_state = State.SR_STATE) →
      TWI.await_completed d (e :: es) s = TWI.await_completed d es (e.deliver d s) ∧
      TWI.await_sleeps d (e :: es) s = 1 + TWI.await_sleeps d es (e.deliver d s) ∧
      TWI.await_completed d [] s = none) := by
  refine ⟨?_, ?_, ?_, ?_⟩
  · rcases h with h | h <;> cases evs <;> simp [TWI.await_completed, h, State.toNat]
  · rcases h with h | h <;> cases evs <;> simp [TWI.await_sleeps, h, State.toNat]
  · rintro s st (hs | hs | hs | hs) <;> subst hs <;> cases evs <;>
      simp [TWI.await_completed, TWI.await_sleeps, TWI_vect, TWI_vect.stop_error,
        TWI.setTWCR, State.toNat]
  · rintro s e es (hs | hs | hs | hs) <;>
      simp [TWI.await_completed, TWI.await_sleeps, hs, State.toNat]

/-- C17 (witness): on the idle power-on controller `await_completed` returns
0 without sleeping although interrupts are pending. -/
theorem C17_await_on_reset_controller :
    (TWI.await_completed Decl.atmega328p [ev Status.START, ev Status.MT_SLA_ACK]
      (TWI.reset 50)).map Prod.fst = some 0 ∧
    TWI.await_sleeps Decl.atmega328p [ev Status.START, ev Status.MT_SLA_ACK]
      (TWI.reset 50) = 0 := by
  have h := C17_await_completed_idle_or_error Decl.atmega328p
    [ev Status.START, ev Status.MT_SLA_ACK] (TWI.reset 50) (Or.inl rfl)
  exact ⟨by rw [h.1]; rfl, h.2.1⟩

/-- C18 (counterexample): `write_request(0x3E, buf, 3)`, then START, the
address ACK (first byte loaded) and a NACK of that data byte (MT_DATA_NACK):
`await_completed` returns 1, not -1, and the lifecycle is IDLE, not ERROR. -/
theorem C18_data_nack_returns_count :
    (TWI.await_completed Decl.atmega328p
      [ev Status.START, ev Status.MT_SLA_ACK, ev Status.MT_DATA_NACK]
      (TWI.write_request Decl.atmega328p 0x3E 100 3 lcd_twi).2).map Prod.fst = some 1 ∧
    (run Decl.atmega328p [ev Status.START, ev Status.MT_SLA_ACK, ev Status.MT_DATA_NACK]
      (TWI.write_request Decl.atmega328p 0x3E 100 3 lcd_twi).2).m_state
      = State.IDLE_STATE := by
  decide

/-- C18 (amended): arbitration lost, an address NACK and a bus error set
`m_count` to -1 with lifecycle ERROR, and `await_completed` then returns -1.
A NACKed data byte in controller-transmit (MT_DATA_NACK) issues STOP, sets the
lifecycle to IDLE and leaves `m_count` as it is, and `await_completed` then
returns that count. A status that is none of the enumerators leaves `m_count`
and the lifecycle unchanged. -/
theorem C18_error_kinds_surface (d : Decl) (evs : List BusEvent) (twi : TWI) :
    (∀ st, st = Status.ARB_LOST ∨ st = Status.MT_SLA_NACK ∨ st = Status.MR_SLA_NACK ∨
        st = Status.BUS_ERROR →
      (TWI_vect d st twi).m_count = -1 ∧
      (TWI_vect d st twi).m_state = State.ERROR_STATE ∧
      (TWI.await_completed d evs (TWI_vect d st twi)).map Prod.fst = some (-1)) ∧
    ((TWI_vect d Status.MT_DATA_NACK twi).m_count = twi.m_count ∧
      (TWI_vect d Status.MT_DATA_NACK twi).m_state = State.IDLE_STATE ∧
      (TWI_vect d Status.MT_DATA_NACK twi).TWCR = Cmd.STOP_CMD ∧
      (TWI.await_completed d evs (TWI_vect d Status.MT_DATA_NACK twi)).map Prod.fst
        = some twi.m_count) ∧
    (∀ code, (TWI_vect d (Status.UNNAMED code) twi).m_count = twi.m_count ∧
      (TWI_vect d (Status.UNNAMED code) twi).m_state = twi.m_state) := by
  refine ⟨?_, ?_, ?_⟩
  · rintro st (hs | hs | hs | hs) <;> subst hs <;> cases evs <;>
      simp [TWI.await_completed, TWI_vect, TWI_vect.stop_error, TWI.setTWCR, State.toNat]
  · cases evs <;>
      simp [TWI.await_completed, TWI_vect, TWI_vect.MT_DATA_NACK, TWI.setTWCR, State.toNat]
  · intro code
    simp [TWI_vect, TWI.setTWCR]

/-- C19: the handler is a total function of the decoded status: every status
is either one of the named enumerators or falls to `default:`. When the decoded
value `v` is none of the values of the enumerators, the handler records it in
`m_status`, writes IDLE to the command register and changes nothing else:
`m_count`, lifecycle, cursor, limit, segment index, data register, vector,
memory, address filter and event queue are unchanged. -/
theorem C19_unnamed_status_forces_idle (d : Decl) (table : List (Nat × Status)) (v : Nat)
    (twi : TWI) (hv : table.lookup v = none) :
    decodeStatus table v = Status.UNNAMED v ∧
    TWI_vect d (decodeStatus table v) twi
      = { twi with m_status := Status.UNNAMED v, TWCR := Cmd.IDLE_CMD,
                   cmdOut := twi.cmdOut ++ [Cmd.IDLE_CMD] } ∧
    (TWI_vect d (decodeStatus table v) twi).TWCR = Cmd.IDLE_CMD ∧
    (TWI_vect d (decodeStatus table v) twi).m_count = twi.m_count ∧
    (TWI_vect d (decodeStatus table v) twi).m_state = twi.m_state ∧
    (TWI_vect d (decodeStatus table v) twi).m_next = twi.m_next ∧
    (TWI_vect d (decodeStatus table v) twi).m_last = twi.m_last ∧
    (TWI_vect d (decodeStatus table v) twi).m_ix = twi.m_ix ∧
    (TWI_vect d (decodeStatus table v) twi).TWDR = twi.TWDR ∧
    (TWI_vect d (decodeStatus table v) twi).dataOut = twi.dataOut ∧
    (TWI_vect d (decodeStatus table v) twi).mem = twi.mem ∧
    (TWI_vect d (decodeStatus table v) twi).m_vec = twi.m_vec ∧
    (TWI_vect d (decodeStatus table v) twi).queue = twi.queue ∧
    (∀ st : Status, st.named = true ∨ ∃ code, st = Status.UNNAMED code) ∧
    (∀ (code : Nat) (s : TWI), (TWI_vect d (Status.UNNAMED code) s).TWCR = Cmd.IDLE_CMD) := by
  have hdec : decodeStatus table v = Status.UNNAMED v := by
    simp [decodeStatus, hv]
  rw [hdec]
  refine ⟨rfl, ?_, ?_, ?_, ?_, ?_, ?_, ?_, ?_, ?_, ?_, ?_, ?_, ?_, ?_⟩
  any_goals simp [TWI_vect, TWI.setTWCR]
  intro st
  cases st <;> simp [Status.named]

/-- C19 (witness): the decoded value 0x1A (register value 0xD0) is none of the
AVR status values; on the controller in flight the handler writes IDLE and
leaves `m_count = 1`, the role and the cursor as they were. -/
theorem C19_status_0xD0_on_inflight :
    decodeStatus avrStatusTable (0xD0 >>> 3) = Status.UNNAMED 0x1A ∧
    (TWI_vect Decl.atmega328p (decodeStatus avrStatusTable (0xD0 >>> 3)) inflight).TWCR
      = Cmd.IDLE_CMD ∧
    (TWI_vect Decl.atmega328p (decodeStatus avrStatusTable (0xD0 >>> 3)) inflight).m_count
      = 1 ∧
    (TWI_vect Decl.atmega328p (decodeStatus avrStatusTable (0xD0 >>> 3)) inflight).m_state
      = State.MT_STATE := by
  have h := C19_unnamed_status_forces_idle Decl.atmega328p avrStatusTable (0xD0 >>> 3)
    inflight (by decide)
  exact ⟨h.1, h.2.2.1, h.2.2.2.1.trans (by decide), h.2.2.2.2.1.trans (by decide)⟩

/-! ### Hamming(8,4) codec -/

/-- C20: Hamming(8,4) round trip: for every 4-bit code `c`, decoding the
symbol `symbols[c]` gives `c` with the nibble vector (entry `s / 2`, high
nibble for even `s`, low nibble for odd `s`) and with the table with syndrome
(low nibble of entry `s`), and the syndrome of `symbols[c]` is 0. -/
theorem C20_hamming_round_trip (c : Nat) (hc : c < 16) :
    HammingCodec.decode4 (HammingCodec.encode4 c) = c ∧
    HammingCodec.decode4_syndrome (HammingCodec.encode4 c) = c ∧
    HammingCodec.syndrome (HammingCodec.encode4 c) = 0 := by
  have h : ∀ c, c < 16 →
      HammingCodec.decode4 (HammingCodec.encode4 c) = c ∧
      HammingCodec.decode4_syndrome (HammingCodec.encode4 c) = c ∧
      HammingCodec.syndrome (HammingCodec.encode4 c) = 0 := by
    decide
  exact h c hc

/-- C20 (witness): code 7 is encoded as 0x7e, and 0x7e decodes to 7 with both
tables, with syndrome 0. -/
theorem C20_code_7_round_trip :
    HammingCodec.encode4 7 = 0x7e ∧
    HammingCodec.decode4 (HammingCodec.encode4 7) = 7 ∧
    HammingCodec.decode4_syndrome (HammingCodec.encode4 7) = 7 ∧
    HammingCodec.syndrome (HammingCodec.encode4 7) = 0 := by
  have h := C20_hamming_round_trip 7 (by decide)
  exact ⟨by decide, h.1, h.2.1, h.2.2⟩

/-! ### Connector -/

/-- C21: assigning `v` to a `Connector<T, true>` (such as `Signal`) schedules
the listeners, once, if and only if `v` differs from the stored value;
assigning to a `Connector<T, false>` schedules the listeners exactly once
whatever the value. In all cases the stored value afterwards is `v`, the
listener vector is unchanged and the assignment returns `v`. -/
theorem C21_connector_assignment {T : Type} [DecidableEq T] (v : T)
    (c : UML.Connector T) (ctl : UML.Controller) :
    ((UML.Connector.assign true v c ctl).2.2.scheduled
      = (if c.m_value = v then ctl.scheduled else ctl.scheduled ++ [c.m_listeners])) ∧
    ((UML.Connector.assign true v c ctl).2.2 ≠ ctl ↔ c.m_value ≠ v) ∧
    (UML.Connector.assign false v c ctl).2.2.scheduled
      = ctl.scheduled ++ [c.m_listeners] ∧
    (∀ on_change : Bool,
      (UML.Connector.assign on_change v c ctl).1 = v ∧
      (UML.Connector.assign on_change v c ctl).2.1.get = v ∧
      (UML.Connector.assign on_change v c ctl).2.1.m_listeners = c.m_listeners) := by
  refine ⟨?_, ?_, ?_, ?_⟩
  · by_cases h : c.m_value = v <;>
      simp [UML.Connector.assign, UML.Controller.schedule, h]
  · by_cases h : c.m_value = v
    · simp [UML.Connector.assign, h]
    · simp only [UML.Connector.assign, UML.Controller.schedule, h, decide_False,
        Bool.and_false, Bool.false_eq_true, if_false, ne_eq, not_false_eq_true, iff_true]
      intro hc
      have := congrArg UML.Controller.scheduled hc
      simp at this
  · simp [UML.Connector.assign, UML.Controller.schedule]
  · intro on_change
    by_cases h : c.m_value = v <;> cases on_change <;>
      simp [UML.Connector.assign, UML.Connector.get, h]

/-! ### Handler steps: start, target-receive -/

/-- C22: from every state, a handler step on START or REP_START loads the
stored address byte `m_addr` into the data register, writes DATA to the
command register and leaves the lifecycle, `m_count`, cursor, limit, segment
index, vector, memory, address filter and event queue unchanged. -/
theorem C22_start_loads_address (d : Decl) (twi : TWI) :
    ∀ st, st = Status.START ∨ st = Status.REP_START →
      (TWI_vect d st twi).TWDR = twi.m_addr ∧
      (TWI_vect d st twi).dataOut = twi.dataOut ++ [twi.m_addr] ∧
      (TWI_vect d st twi).TWCR = Cmd.DATA_CMD ∧
      (TWI_vect d st twi).cmdOut = twi.cmdOut ++ [Cmd.DATA_CMD] ∧
      (TWI_vect d st twi).m_state = twi.m_state ∧
      (TWI_vect d st twi).m_count = twi.m_count ∧
      (TWI_vect d st twi).m_next = twi.m_next ∧
      (TWI_vect d st twi).m_last = twi.m_last ∧
      (TWI_vect d st twi).m_ix = twi.m_ix ∧
      (TWI_vect d st twi).m_vec = twi.m_vec ∧
      (TWI_vect d st twi).mem = twi.mem ∧
      (TWI_vect d st twi).m_addr = twi.m_addr ∧
      (TWI_vect d st twi).TWAR = twi.TWAR ∧
      (TWI_vect d st twi).queue = twi.queue := by
  rintro st (h | h) <;> subst h <;> simp [TWI_vect, TWI.setTWCR, TWI.setTWDR]

theorem SR_data_store (d : Decl) (g : Bool) (b : Nat) (s : TWI) (h : s.m_next < s.m_last) :
    ((srData g b).deliver d s).m_next = s.m_next + 1 ∧
    ((srData g b).deliver d s).m_last = s.m_last ∧
    ((srData g b).deliver d s).m_count = int16 (s.m_count + 1) ∧
    ((srData g b).deliver d s).mem = upd s.mem s.m_next b ∧
    ((srData g b).deliver d s).TWCR = Cmd.ACK_CMD ∧
    ((srData g b).deliver d s).cmdOut = s.cmdOut ++ [Cmd.ACK_CMD] ∧
    ((srData g b).deliver d s).m_state = s.m_state ∧
    ((srData g b).deliver d s).queue = s.queue := by
  cases g <;> simp [srData, BusEvent.deliver, rx, TWI_vect, TWI.setTWCR, h]

theorem SR_data_full (d : Decl) (g : Bool) (b : Nat) (s : TWI) (h : ¬ s.m_next < s.m_last) :
    ((srData g b).deliver d s).m_next = s.m_next ∧
    ((srData g b).deliver d s).m_last = s.m_last ∧
    ((srData g b).deliver d s).m_count = s.m_count ∧
    ((srData g b).deliver d s).mem = s.mem ∧
    ((srData g b).deliver d s).TWCR = Cmd.NACK_CMD ∧
    ((srData g b).deliver d s).cmdOut = s.cmdOut ++ [Cmd.NACK_CMD] ∧
    ((srData g b).deliver d s).m_state = s.m_state ∧
    ((srData g b).deliver d s).queue = s.queue := by
  cases g <;> simp [srData, BusEvent.deliver, rx, TWI_vect, TWI.setTWCR, h]

/-- C23 (code at the failing input): on a data interrupt in target-receive
mode the handler does test the cursor against the limit: with room left it
stores the byte at the cursor, adds one to `m_count` and requests ACK; at the
limit it requests NACK and changes neither memory nor `m_count` nor cursor.
But every target-receive selection takes cursor and limit from the READ slot
of the vector, not from the WRITE buffer. On the node with a WRITE buffer of
capacity 2 at address 100 and a READ buffer of 4 bytes at 200, a controller
write of the three bytes 0xA1, 0xA2, 0xA3 has all three bytes acknowledged:
`m_count = 3`, above the capacity 2, the cursor 203 lies outside the WRITE
buffer, which still holds 0, 0, the bytes are in the READ buffer, and the
WRITE_COMPLETED event posted on the stop carries the count 3. -/
theorem C23_receive_exceeds_write_capacity :
    (∀ (d : Decl) (s : TWI) (g : Bool) (b : Nat), s.m_next < s.m_last →
      ((srData g b).deliver d s).mem = upd s.mem s.m_next b ∧
      ((srData g b).deliver d s).m_count = int16 (s.m_count + 1) ∧
      ((srData g b).deliver d s).m_next = s.m_next + 1 ∧
      ((srData g b).deliver d s).m_last = s.m_last ∧
      ((srData g b).deliver d s).TWCR = Cmd.ACK_CMD) ∧
    (∀ (d : Decl) (s : TWI) (g : Bool) (b : Nat), ¬ s.m_next < s.m_last →
      ((srData g b).deliver d s).mem = s.mem ∧
      ((srData g b).deliver d s).m_count = s.m_count ∧
      ((srData g b).deliver d s).m_next = s.m_next ∧
      ((srData g b).deliver d s).m_last = s.m_last ∧
      ((srData g b).deliver d s).TWCR = Cmd.NACK_CMD) ∧
    (∀ (d : Decl) (st : Status) (twi : TWI), isSRSelect st →
      ((ev st).deliver d twi).m_next = (twi.m_vec d.READ_IX).buf ∧
      ((ev st).deliver d twi).m_last
        = (twi.m_vec d.READ_IX).buf + (twi.m_vec d.READ_IX).size ∧
      ((ev st).deliver d twi).m_count = 0) ∧
    node_small_write.m_vec Decl.atmega328p.WRITE_IX = ⟨100, 2⟩ ∧
    node_small_write.m_vec Decl.atmega328p.READ_IX = ⟨200, 4⟩ ∧
    (run Decl.atmega328p
      (ev Status.SR_SLA_ACK :: srDataEvents [(false, 0xA1), (false, 0xA2), (false, 0xA3)])
      node_small_write).m_count = 3 ∧
    (run Decl.atmega328p
      (ev Status.SR_SLA_ACK :: srDataEvents [(false, 0xA1), (false, 0xA2), (false, 0xA3)])
      node_small_write).m_next = 203 ∧
    (run Decl.atmega328p
      (ev Status.SR_SLA_ACK :: srDataEvents [(false, 0xA1), (false, 0xA2), (false, 0xA3)])
      node_small_write).cmdOut
      = [Cmd.IDLE_CMD, Cmd.ACK_CMD, Cmd.ACK_CMD, Cmd.ACK_CMD, Cmd.ACK_CMD] ∧
    bytesAt (run Decl.atmega328p
      (ev Status.SR_SLA_ACK :: srDataEvents [(false, 0xA1), (false, 0xA2), (false, 0xA3)])
      node_small_write).mem 100 2 = [0, 0] ∧
    bytesAt (run Decl.atmega328p
      (ev Status.SR_SLA_ACK :: srDataEvents [(false, 0xA1), (false, 0xA2), (false, 0xA3)])
      node_small_write).mem 200 3 = [0xA1, 0xA2, 0xA3] ∧
    (run Decl.atmega328p
      (ev Status.SR_SLA_ACK :: srDataEvents [(false, 0xA1), (false, 0xA2), (false, 0xA3)]
        ++ [ev Status.SR_STOP])
      node_small_write).queue = [⟨EventType.WRITE_COMPLETED_TYPE, 7, 3⟩] := by
  refine ⟨?_, ?_, ?_, by decide, by decide, by decide, by decide, by decide, by decide,
    by decide, by decide⟩
  · intro d s g b h
    obtain ⟨a1, a2, a3, a4, a5, a6, a7, a8⟩ := SR_data_store d g b s h
    exact ⟨a4, a3, a1, a2, a5⟩
  · intro d s g b h
    obtain ⟨a1, a2, a3, a4, a5, a6, a7, a8⟩ := SR_data_full d g b s h
    exact ⟨a4, a3, a1, a2, a5⟩
  · rintro d st twi (h | h | h | h) <;> subst h <;>
      simp [BusEvent.deliver, ev, TWI_vect, TWI.setTWCR]

/-! ### Lifecycle discipline of the handler -/

/-- C24 (counterexample): in role ST_STATE the status ST_LAST_DATA (last data
byte transmitted, ACK received) sets the lifecycle to IDLE. No stop is issued
(the command written is ACK), and the status is none of stop detected, data
NACK in target-transmit, arbitration lost, address NACK or bus error. -/
theorem C24_last_data_ends_target_transmit :
    node_transmitting.m_state = State.ST_STATE ∧
    (TWI_vect Decl.atmega328p Status.ST_LAST_DATA node_transmitting).m_state
      = State.IDLE_STATE ∧
    (TWI_vect Decl.atmega328p Status.ST_LAST_DATA node_transmitting).cmdOut
      = node_transmitting.cmdOut ++ [Cmd.ACK_CMD] ∧
    Status.ST_LAST_DATA ≠ Status.SR_STOP ∧ Status.ST_LAST_DATA ≠ Status.ST_DATA_NACK ∧
    Status.ST_LAST_DATA ≠ Status.ARB_LOST ∧ Status.ST_LAST_DATA ≠ Status.MT_SLA_NACK ∧
    Status.ST_LAST_DATA ≠ Status.MR_SLA_NACK ∧ Status.ST_LAST_DATA ≠ Status.BUS_ERROR := by
  decide

theorem vect_lifecycle (d : Decl) (st : Status) (s : TWI) :
    (TWI_vect d st s).m_state = s.m_state ∨
    ((TWI_vect d st s).m_state = State.IDLE_STATE ∧
      ((TWI_vect d st s).cmdOut = s.cmdOut ++ [Cmd.STOP_CMD] ∨ st = Status.SR_STOP ∨
        st = Status.ST_DATA_NACK ∨ st = Status.ST_LAST_DATA)) ∨
    ((TWI_vect d st s).m_state = State.ERROR_STATE ∧
      (st = Status.ARB_LOST ∨ st = Status.MT_SLA_NACK ∨ st = Status.MR_SLA_NACK ∨
        st = Status.BUS_ERROR)) ∨
    (st.targetSelect = true ∧
      ((TWI_vect d st s).m_state = State.ST_STATE ∨
        (TWI_vect d st s).m_state = State.SR_STATE)) := by
  have hmt : ∀ st, st = Status.MT_SLA_ACK ∨ st = Status.MT_DATA_ACK →
      (TWI_vect d st s).m_state = s.m_state ∨
      ((TWI_vect d st s).m_state = State.IDLE_STATE ∧
        (TWI_vect d st s).cmdOut = s.cmdOut ++ [Cmd.STOP_CMD]) := by
    rintro st (h | h) <;> subst h
    all_goals
      by_cases h1 : s.m_next = s.m_last
      · by_cases hz : 0 < (s.m_vec (s.m_ix + 1)).size <;>
          simp [TWI_vect, TWI_vect.MT_DATA_NACK, TWI.setTWCR, TWI.setTWDR, h1, hz]
      · by_cases h3 : s.m_next < s.m_last <;>
          simp [TWI_vect, TWI_vect.MT_DATA_NACK, TWI.setTWCR, TWI.setTWDR, h1, h3]
  cases st
  case MT_SLA_ACK =>
    rcases hmt _ (Or.inl rfl) with h | ⟨h, h2⟩
    · exact Or.inl h
    · exact Or.inr (Or.inl ⟨h, Or.inl h2⟩)
  case MT_DATA_ACK =>
    rcases hmt _ (Or.inr rfl) with h | ⟨h, h2⟩
    · exact Or.inl h
    · exact Or.inr (Or.inl ⟨h, Or.inl h2⟩)
  case ST_DATA_ACK =>
    by_cases h3 : s.m_next < s.m_last <;>
      simp [TWI_vect, TWI_vect.ST_DATA_ACK, TWI.setTWCR, TWI.setTWDR, h3]
  case ST_SLA_ACK =>
    by_cases h3 : 0 < (s.m_vec d.READ_IX).size <;>
      simp [TWI_vect, TWI_vect.ST_DATA_ACK, TWI.setTWCR, TWI.setTWDR, h3, Status.targetSelect]
  case ST_ARB_LOST_SLA_ACK =>
    by_cases h3 : 0 < (s.m_vec d.READ_IX).size <;>
      simp [TWI_vect, TWI_vect.ST_DATA_ACK, TWI.setTWCR, TWI.setTWDR, h3, Status.targetSelect]
  case SR_DATA_ACK =>
    by_cases h3 : s.m_next < s.m_last <;> simp [TWI_vect, TWI.setTWCR, h3]
  case SR_GCALL_DATA_ACK =>
    by_cases h3 : s.m_next < s.m_last <;> simp [TWI_vect, TWI.setTWCR, h3]
  all_goals
    simp [TWI_vect, TWI_vect.MT_DATA_NACK, TWI_vect.MR_SLA_ACK, TWI_vect.stop_error,
      TWI.setTWCR, TWI.setTWDR, Event.push, Status.targetSelect]

/-- C24 (amended): from a state whose lifecycle is IDLE or ERROR, a handler
step leaves the lifecycle in an active role only if the status is a
target-selected event; from a state with an active role, a step leaves the
lifecycle IDLE or ERROR only if it issued a stop or the status is SR_STOP,
ST_DATA_NACK, ST_LAST_DATA, ARB_LOST, MT_SLA_NACK, MR_SLA_NACK or BUS_ERROR. -/
theorem C24_lifecycle_entry_and_exit (d : Decl) (st : Status) (s : TWI) :
    ((s.m_state = State.IDLE_STATE ∨ s.m_state = State.ERROR_STATE) →
      (TWI_vect d st s).active → st.targetSelect = true) ∧
    (s.active →
      ((TWI_vect d st s).m_state = State.IDLE_STATE ∨
        (TWI_vect d st s).m_state = State.ERROR_STATE) →
      ((TWI_vect d st s).cmdOut = s.cmdOut ++ [Cmd.STOP_CMD] ∨ st = Status.SR_STOP ∨
        st = Status.ST_DATA_NACK ∨ st = Status.ST_LAST_DATA ∨ st = Status.ARB_LOST ∨
        st = Status.MT_SLA_NACK ∨ st = Status.MR_SLA_NACK ∨ st = Status.BUS_ERROR)) := by
  rcases vect_lifecycle d st s with h | ⟨h, h2⟩ | ⟨h, h2⟩ | ⟨h, h2⟩
  · refine ⟨?_, ?_⟩
    · intro hs hr
      unfold TWI.active at hr
      rw [h] at hr
      rcases hs with h3 | h3 <;> rw [h3] at hr <;> simp [State.toNat] at hr
    · intro hs hr
      unfold TWI.active at hs
      rw [h] at hr
      rcases hr with h3 | h3 <;> rw [h3] at hs <;> simp [State.toNat] at hs
  · refine ⟨?_, ?_⟩
    · intro _ hr
      unfold TWI.active at hr
      rw [h] at hr
      simp [State.toNat] at hr
    · intro _ _
      rcases h2 with h3 | h3 | h3 | h3
      · exact Or.inl h3
      · exact Or.inr (Or.inl h3)
      · exact Or.inr (Or.inr (Or.inl h3))
      · exact Or.inr (Or.inr (Or.inr (Or.inl h3)))
  · refine ⟨?_, ?_⟩
    · intro _ hr
      unfold TWI.active at hr
      rw [h] at hr
      simp [State.toNat] at hr
    · intro _ _
      exact Or.inr (Or.inr (Or.inr (Or.inr h2)))
  · refine ⟨fun _ _ => h, ?_⟩
    intro _ hr
    rcases h2 with h3 | h3 <;> rw [h3] at hr <;> simp at hr

/-! ### Controller-transmit: what `m_count` counts -/

theorem MTAck_step_cases (d : Decl) (e : BusEvent) (s : TWI) (he : isMTAck e) :
    ((e.deliver d s).m_state = s.m_state ∧ (e.deliver d s).m_count = int16 (s.m_count + 1) ∧
        (e.deliver d s).dataOut.length = s.dataOut.length + 1) ∨
    ((e.deliver d s).m_state = State.IDLE_STATE ∧ (e.deliver d s).m_count = s.m_count ∧
        (e.deliver d s).dataOut = s.dataOut) := by
  by_cases h1 : s.m_next = s.m_last
  · by_cases hz : 0 < (s.m_vec (s.m_ix + 1)).size
    · have h := MT_advance_send d e s he h1 hz
      refine Or.inl ⟨h.2.2.2.2.2.2.1, ?_, ?_⟩
      · rw [h.2.2.2.2.2.1]; rfl
      · rw [h.2.2.2.2.2.2.2.1]; simp [TWI.nextSegment, bytesAt]
    · have h := MT_advance_stop d e s he h1 (by omega)
      exact Or.inr ⟨h.1, h.2.1, h.2.2.1⟩
  · by_cases h3 : s.m_next < s.m_last
    · have h := MTSent_step d e s he h3
      refine Or.inl ⟨h.2.2.2.2.2.2.1, ?_, ?_⟩
      · rw [h.2.2.2.2.2.1]; rfl
      · rw [h.2.2.2.2.2.2.2.1]; simp [bytesAt]
    · obtain ⟨st, dat⟩ := e
      obtain ⟨hs, hd⟩ := he
      simp only at hs hd
      subst hd
      rcases hs with h | h <;> subst h <;>
        simp [BusEvent.deliver, TWI_vect, TWI_vect.MT_DATA_NACK, TWI.setTWCR, h1, h3]

theorem MTAck_inactive_stays (d : Decl) (evs : List BusEvent) :
    ∀ s, (∀ e ∈ evs, isMTAck e) → ¬ s.active → ¬ (run d evs s).active := by
  induction evs with
  | nil => intro s _ h; exact h
  | cons e es ih =>
    intro s hall hs
    apply ih (e.deliver d s) (fun x hx => hall x (List.mem_cons_of_mem _ hx))
    rcases MTAck_step_cases d e s (hall e (List.mem_cons_self _ _)) with h | h
    · unfold TWI.active at hs ⊢; rw [h.1]; exact hs
    · unfold TWI.active; rw [h.1]; simp [State.toNat]

/-- While a controller-transmit transaction is still active after a run of
acknowledge interrupts, every one of them has loaded one byte: `m_count` and
the number of bytes written to the data register have grown by the number of
interrupts, and the foreground wait has passed all of them. -/
theorem MTAck_active_run (d : Decl) (evs rest : List BusEvent) :
    ∀ s, (∀ e ∈ evs, isMTAck e) → (run d evs s).active →
      s.active ∧
      (run d evs s).m_count = countAfter s.m_count evs.length ∧
      (run d evs s).dataOut.length = s.dataOut.length + evs.length ∧
      TWI.await_completed d (evs ++ rest) s = TWI.await_completed d rest (run d evs s) := by
  induction evs with
  | nil => intro s _ h; exact ⟨h, rfl, by simp [run], rfl⟩
  | cons e es ih =>
    intro s hall hact
    have hes : ∀ x ∈ es, isMTAck x := fun x hx => hall x (List.mem_cons_of_mem _ hx)
    obtain ⟨i1, i2, i3, i4⟩ := ih (e.deliver d s) hes hact
    rcases MTAck_step_cases d e s (hall e (List.mem_cons_self _ _)) with h | h
    · have hs : s.active := by
        unfold TWI.active at i1 ⊢; rw [h.1] at i1; exact i1
      refine ⟨hs, ?_, ?_, ?_⟩
      · show (run d es (e.deliver d s)).m_count = _
        rw [i2, h.2.1]; rfl
      · show (run d es (e.deliver d s)).dataOut.length = _
        rw [i3, h.2.2]; simp only [List.length_cons]; omega
      · rw [List.cons_append, await_active_cons d e _ s hs]
        exact i4
    · exfalso
      unfold TWI.active at i1
      rw [h.1] at i1
      simp [State.toNat] at i1

/-- C25 (counterexample): `write_request(0x3E, buf, 3)`; the target ACKs the
address and the first data byte (k = 1) and NACKs the second: `m_count` ends
at 2, which is neither -1 nor k = 1. -/
theorem C25_nacked_byte_is_counted :
    (run Decl.atmega328p
      [ev Status.START, ev Status.MT_SLA_ACK, ev Status.MT_DATA_ACK, ev Status.MT_DATA_NACK]
      (TWI.write_request Decl.atmega328p 0x3E 100 3 lcd_twi).2).m_count = 2 ∧
    (run Decl.atmega328p
      [ev Status.START, ev Status.MT_SLA_ACK, ev Status.MT_DATA_ACK, ev Status.MT_DATA_NACK]
      (TWI.write_request Decl.atmega328p 0x3E 100 3 lcd_twi).2).m_state
      = State.IDLE_STATE ∧
    (TWI.await_completed Decl.atmega328p
      [ev Status.START, ev Status.MT_SLA_ACK, ev Status.MT_DATA_ACK, ev Status.MT_DATA_NACK]
      (TWI.write_request Decl.atmega328p 0x3E 100 3 lcd_twi).2).map Prod.fst = some 2 := by
  decide

/-- C25 (amended): `m_count` counts the data bytes loaded into the data
register. In a controller-transmit transaction (any vector) in which the
target ACKs the address and the first `k` data bytes, the transaction being
still active with byte `k + 1` on the wire, and then NACKs that byte
(MT_DATA_NACK), the transaction ends in lifecycle IDLE and, for `k + 1` within
the range of the signed counter (`k + 1 ≤ 32767`), `m_count` ends at `k + 1`:
the `k` acknowledged bytes and the NACKed one; `await_completed` returns
`k + 1`. For every `k` the counter holds `k + 1` as a 16-bit signed value. -/
theorem C25_count_includes_nacked_byte (d : Decl) (addr k : Nat) (twi : TWI)
    (hact : (run d (alwaysAck k) (TWI.request d addr twi).2).active) :
    (run d (alwaysAck k ++ [ev Status.MT_DATA_NACK]) (TWI.request d addr twi).2).m_count
      = int16 ((k : Int) + 1) ∧
    (k + 1 ≤ 32767 →
      (run d (alwaysAck k ++ [ev Status.MT_DATA_NACK]) (TWI.request d addr twi).2).m_count
        = (k : Int) + 1 ∧
      TWI.await_completed d (alwaysAck k ++ [ev Status.MT_DATA_NACK])
          (TWI.request d addr twi).2
        = some ((k : Int) + 1,
            run d (alwaysAck k ++ [ev Status.MT_DATA_NACK]) (TWI.request d addr twi).2)) ∧
    (run d (alwaysAck k ++ [ev Status.MT_DATA_NACK]) (TWI.request d addr twi).2).m_state
      = State.IDLE_STATE ∧
    (run d (alwaysAck k ++ [ev Status.MT_DATA_NACK])
      (TWI.request d addr twi).2).dataOut.length = twi.dataOut.length + 1 + (k + 1) ∧
    TWI.await_completed d (alwaysAck k ++ [ev Status.MT_DATA_NACK]) (TWI.request d addr twi).2
      = some (int16 ((k : Int) + 1),
          run d (alwaysAck k ++ [ev Status.MT_DATA_NACK]) (TWI.request d addr twi).2) := by
  have hact0 := request_active d addr twi
  have hdata0 : (TWI.request d addr twi).2.dataOut = twi.dataOut := by
    simp [TWI.request, TWI.setTWCR]
  have hcount0 : (TWI.request d addr twi).2.m_count = 0 := by
    simp [TWI.request, TWI.setTWCR]
  generalize (TWI.request d addr twi).2 = s0 at *
  obtain ⟨t1, t2, t3, t4, t5, t6, t7, t8, t9, t10, t11⟩ := START_step d s0
  have hsplit : run d (alwaysAck k) s0
      = run d (ev Status.MT_SLA_ACK :: List.replicate k (ev Status.MT_DATA_ACK))
          ((ev Status.START).deliver d s0) := rfl
  rw [hsplit] at hact
  obtain ⟨m1, m2, m3, m4⟩ := MTAck_active_run d _ [ev Status.MT_DATA_NACK] _
    (isMTAck_ackList k) hact
  have hlen : (ev Status.MT_SLA_ACK :: List.replicate k (ev Status.MT_DATA_ACK)).length
      = k + 1 := by simp
  have hcnt : countAfter 0 (k + 1) = int16 ((k : Int) + 1) := by
    rw [countAfter_start]
    push_cast
    rfl
  rw [hlen, t6, hcount0, hcnt] at m2
  rw [hlen, t8, hdata0] at m3
  simp only [List.length_append, List.length_singleton] at m3
  have hrun : run d (alwaysAck k ++ [ev Status.MT_DATA_NACK]) s0
      = TWI_vect d Status.MT_DATA_NACK
          (run d (ev Status.MT_SLA_ACK :: List.replicate k (ev Status.MT_DATA_ACK))
            ((ev Status.START).deliver d s0)) := by
    rw [run_append, hsplit]; rfl
  have haw : TWI.await_completed d (alwaysAck k ++ [ev Status.MT_DATA_NACK]) s0
      = TWI.await_completed d [ev Status.MT_DATA_NACK]
          (run d (ev Status.MT_SLA_ACK :: List.replicate k (ev Status.MT_DATA_ACK))
            ((ev Status.START).deliver d s0)) := by
    show TWI.await_completed d (ev Status.START ::
      ((ev Status.MT_SLA_ACK :: List.replicate k (ev Status.MT_DATA_ACK))
        ++ [ev Status.MT_DATA_NACK])) s0 = _
    rw [await_active_cons d _ _ s0 hact0]
    exact m4
  rw [haw, hrun]
  generalize run d (ev Status.MT_SLA_ACK :: List.replicate k (ev Status.MT_DATA_ACK))
    ((ev Status.START).deliver d s0) = s1 at *
  have hfin : (TWI_vect d Status.MT_DATA_NACK s1).m_count = s1.m_count ∧
      (TWI_vect d Status.MT_DATA_NACK s1).m_state = State.IDLE_STATE ∧
      (TWI_vect d Status.MT_DATA_NACK s1).dataOut = s1.dataOut := by
    simp [TWI_vect, TWI_vect.MT_DATA_NACK, TWI.setTWCR]
  have hdone : ¬ (TWI_vect d Status.MT_DATA_NACK s1).active := by
    unfold TWI.active; rw [hfin.2.1]; simp [State.toNat]
  have hawait : TWI.await_completed d [ev Status.MT_DATA_NACK] s1
      = some (int16 ((k : Int) + 1), TWI_vect d Status.MT_DATA_NACK s1) := by
    rw [await_active_cons d _ [] s1 hact]
    show TWI.await_completed d [] (TWI_vect d Status.MT_DATA_NACK s1) = _
    rw [await_done d [] _ hdone, hfin.1, m2]
  refine ⟨?_, ?_, hfin.2.1, ?_, hawait⟩
  · rw [hfin.1, m2]
  · intro hrange
    have hr : int16 ((k : Int) + 1) = (k : Int) + 1 := int16_of_range _ (by omega) (by omega)
    rw [hawait, hfin.1, m2, hr]
    exact ⟨rfl, rfl⟩
  · rw [hfin.2.2, m3]

/-- C25 (witness): `request(0x3E)` on the vector left by
`write_request(0x3E, buf, 3)`; address and first data byte ACKed (k = 1), the
second data byte NACKed: `m_count = 2`, lifecycle IDLE. -/
theorem C25_second_byte_nacked :
    (run Decl.atmega328p (alwaysAck 1 ++ [ev Status.MT_DATA_NACK])
      (TWI.request Decl.atmega328p 0x3E
        (TWI.write_request Decl.atmega328p 0x3E 100 3 lcd_twi).2).2).m_count = 2 ∧
    (run Decl.atmega328p (alwaysAck 1 ++ [ev Status.MT_DATA_NACK])
      (TWI.request Decl.atmega328p 0x3E
        (TWI.write_request Decl.atmega328p 0x3E 100 3 lcd_twi).2).2).m_state
      = State.IDLE_STATE := by
  have h := C25_count_includes_nacked_byte Decl.atmega328p 0x3E 1
    (TWI.write_request Decl.atmega328p 0x3E 100 3 lcd_twi).2
    (by unfold TWI.active; decide)
  exact ⟨h.1.trans (by decide), h.2.2.1⟩

/-! ### Controller-transmit over a vector of any number of segments -/

/-- C27 (code at the failing input): `read_request(addr, buf, 0)` with a
non-null buffer pointer against a protocol-following target: on MR_SLA_ACK the
handler requests NACK, the target sends one byte, and on MR_DATA_NACK the
handler stores it at `buf[0]`, beyond the empty buffer, and counts it:
`m_count = 1 > 0`. With a null buffer pointer the handler requests ACK on
MR_SLA_ACK, and a byte sent by the target is stored at address 0 and counted
as well. On the power-on controller with the buffer at 100 and the byte 0xAB,
memory at 100 changes from 0 to 0xAB. -/
theorem C27_empty_buffer_is_overrun :
    (∀ (d : Decl) (addr buf b : Nat) (rest : List Nat) (twi : TWI), buf ≠ 0 →
      (read_transfer d addr buf 0 (b :: rest) twi).mem buf = b ∧
      (read_transfer d addr buf 0 (b :: rest) twi).m_count = 1 ∧
      (read_transfer d addr buf 0 (b :: rest) twi).m_state = State.IDLE_STATE) ∧
    (∀ (d : Decl) (addr b : Nat) (twi : TWI),
      (read_transfer d addr 0 0 [b] twi).mem 0 = b ∧
      (read_transfer d addr 0 0 [b] twi).m_count = 1 ∧
      (read_transfer d addr 0 0 [b] twi).cmdOut
        = twi.cmdOut ++ [Cmd.START_CMD, Cmd.DATA_CMD, Cmd.ACK_CMD, Cmd.ACK_CMD]) ∧
    (TWI.reset 50).mem 100 = 0 ∧
    (read_transfer Decl.atmega328p 0x50 100 0 [0xAB] (TWI.reset 50)).mem 100 = 0xAB ∧
    (read_transfer Decl.atmega328p 0x50 100 0 [0xAB] (TWI.reset 50)).m_count = 1 ∧
    (read_transfer Decl.atmega328p 0x50 100 0 [0xAB] (TWI.reset 50)).cmdOut
      = [Cmd.START_CMD, Cmd.DATA_CMD, Cmd.NACK_CMD, Cmd.STOP_CMD] := by
  have h1 : int16 1 = 1 := by decide
  refine ⟨?_, ?_, by decide, by decide, by decide, by decide⟩
  · intro d addr buf b rest twi hbuf
    have hp : ¬ buf < ptr_pred buf := by
      unfold ptr_pred
      omega
    simp [read_transfer, mr_target, run, BusEvent.deliver, ev, rx, TWI.read_request, iovec_arg,
      iovec_end, TWI.request, TWI_vect, TWI_vect.MR_SLA_ACK, TWI.setTWCR, TWI.setTWDR, upd, hp,
      h1]
  · intro d addr b twi
    have hp0 : ptr_pred 0 = 65535 := by decide
    simp [read_transfer, mr_target, run, BusEvent.deliver, ev, rx, TWI.read_request, iovec_arg,
      iovec_end, TWI.request, TWI_vect, TWI_vect.MR_SLA_ACK, TWI.setTWCR, TWI.setTWDR, upd, hp0,
      h1]

/-! ### Controller-transmit: segment index and cursor bounds -/

/-- C29: Hamming single-bit error correction: for every 4-bit code `c` and
every bit position `i` of the symbol, the symbol `symbols[c]` with bit `i`
flipped decodes to `c` with the nibble vector and with the table with
syndrome, and its syndrome is non-zero. -/
theorem C29_hamming_corrects_single_bit (c i : Nat) (hc : c < 16) (hi : i < 8) :
    HammingCodec.decode4 (HammingCodec.encode4 c ^^^ (1 <<< i)) = c ∧
    HammingCodec.decode4_syndrome (HammingCodec.encode4 c ^^^ (1 <<< i)) = c ∧
    HammingCodec.syndrome (HammingCodec.encode4 c ^^^ (1 <<< i)) ≠ 0 := by
  have h : ∀ c, c < 16 → ∀ i, i < 8 →
      HammingCodec.decode4 (HammingCodec.encode4 c ^^^ (1 <<< i)) = c ∧
      HammingCodec.decode4_syndrome (HammingCodec.encode4 c ^^^ (1 <<< i)) = c ∧
      HammingCodec.syndrome (HammingCodec.encode4 c ^^^ (1 <<< i)) ≠ 0 := by
    decide
  exact h c hc i hi

/-- C29 (witness): code 7 is sent as 0x7e; with bit 3 flipped the symbol 0x76
still decodes to 7 with both tables, and its syndrome is not 0. -/
theorem C29_code_7_bit_3 :
    HammingCodec.encode4 7 ^^^ (1 <<< 3) = 0x76 ∧
    HammingCodec.decode4 (HammingCodec.encode4 7 ^^^ (1 <<< 3)) = 7 ∧
    HammingCodec.decode4_syndrome (HammingCodec.encode4 7 ^^^ (1 <<< 3)) = 7 ∧
    HammingCodec.syndrome (HammingCodec.encode4 7 ^^^ (1 <<< 3)) ≠ 0 := by
  have h := C29_hamming_corrects_single_bit 7 3 (by decide) (by decide)
  exact ⟨by decide, h.1, h.2.1, h.2.2⟩

/-- C30: the two decoding tables agree: for every 8-bit symbol `s`, the nibble
selected from the nibble vector (entry `s / 2`, high nibble for even `s`, low
nibble for odd `s`) equals the low nibble of entry `s` of the table with
syndrome. -/
theorem C30_hamming_tables_agree (s : Nat) (hs : s < 256) :
    HammingCodec.decode4 s = HammingCodec.decode4_syndrome s := by
  have h : ∀ s, s < 256 → HammingCodec.decode4 s = HammingCodec.decode4_syndrome s := by
    set_option maxRecDepth 8192 in decide
  exact h s hs

/-- C30 (witness): the symbol 0x76 decodes to 7 with both tables. -/
theorem C30_symbol_0x76 :
    HammingCodec.decode4 0x76 = 7 ∧ HammingCodec.decode4_syndrome 0x76 = 7 := by
  have h := C30_hamming_tables_agree 0x76 (by decide)
  exact ⟨by decide, h ▸ (by decide)⟩

/-- C22 (witness): a repeated start on the controller in flight, whose address
byte is 0x7C: the data register is loaded with 0x7C, the command is DATA, and
the role, `m_count = 1` and the cursor stay as they were. -/
theorem C22_repeated_start_on_inflight :
    (TWI_vect Decl.atmega328p Status.REP_START inflight).TWDR = 0x7C ∧
    (TWI_vect Decl.atmega328p Status.REP_START inflight).TWCR = Cmd.DATA_CMD ∧
    (TWI_vect Decl.atmega328p Status.REP_START inflight).m_state = State.MT_STATE ∧
    (TWI_vect Decl.atmega328p Status.REP_START inflight).m_count = 1 ∧
    (TWI_vect Decl.atmega328p Status.REP_START inflight).m_next = 101 := by
  have h := C22_start_loads_address Decl.atmega328p inflight Status.REP_START (Or.inr rfl)
  exact ⟨h.1, h.2.2.1, h.2.2.2.2.1, h.2.2.2.2.2.1, h.2.2.2.2.2.2.1⟩

/-! ### The virtual LCD slave -/

theorem on_request_loop_in_range (m_buf : Nat → Nat) (size : Nat) (hsize : size ≤ 255) :
    ∀ (n fuel i : Nat) (calls : List LCD.Call), i + n = size → n < fuel →
      VLCD.Slave.on_request.loop m_buf size fuel i calls
        = some (calls ++ (bytesAt m_buf i n).map LCD.Call.putchar) := by
  intro n
  induction n with
  | zero =>
    intro fuel i calls hi hf
    obtain ⟨f, rfl⟩ : ∃ f, fuel = f + 1 := ⟨fuel - 1, by omega⟩
    have : ¬ i < size := by omega
    simp [VLCD.Slave.on_request.loop, this, bytesAt]
  | succ n ih =>
    intro fuel i calls hi hf
    obtain ⟨f, rfl⟩ : ∃ f, fuel = f + 1 := ⟨fuel - 1, by omega⟩
    have hlt : i < size := by omega
    have hmod : (i + 1) % 256 = i + 1 := Nat.mod_eq_of_lt (by omega)
    simp only [VLCD.Slave.on_request.loop, hlt, if_true, hmod]
    rw [ih f (i + 1) _ (by omega) (by omega), bytesAt_succ]
    simp

theorem on_request_loop_runs_on (m_buf : Nat → Nat) (size : Nat) (hsize : 256 ≤ size) :
    ∀ (fuel i : Nat) (calls : List LCD.Call), i < 256 →
      VLCD.Slave.on_request.loop m_buf size fuel i calls = none := by
  intro fuel
  induction fuel with
  | zero => intro i calls _; rfl
  | succ f ih =>
    intro i calls hi
    have hlt : i < size := by omega
    simp only [VLCD.Slave.on_request.loop, hlt, if_true]
    exact ih _ _ (Nat.mod_lt _ (by decide))

/-- C31 (code at the failing inputs): `VLCD::Slave::on_request` on a receive
buffer whose first byte is non-zero. With `size = 0` it still writes the first
byte of the buffer to the LCD: one character instead of none. With
`size ≥ 256` the 8-bit loop counter never reaches `size` and the function does
not return, whatever the fuel. For `1 ≤ size ≤ 255` it returns, having written
exactly the first `size` bytes in order. With a first byte of zero it returns
without writing a character: a command for size 2, `set_cursor(buf[1],
buf[2])` for size 3, nothing for any other size. -/
theorem C31_on_request_text_path :
    (∀ (k : VLCD.Slave.Codes) (m_buf : Nat → Nat) (buf fuel : Nat), m_buf 0 ≠ 0 → 0 < fuel →
      VLCD.Slave.on_request k m_buf fuel buf 0 = some [LCD.Call.putchar (m_buf 0)]) ∧
    VLCD.Slave.on_request ⟨1, 2, 3, 4⟩ stale_text 10 100 0
      = some [LCD.Call.putchar 0x48] ∧
    (∀ (k : VLCD.Slave.Codes) (m_buf : Nat → Nat) (buf size fuel : Nat), m_buf 0 ≠ 0 →
      256 ≤ size → VLCD.Slave.on_request k m_buf fuel buf size = none) ∧
    (∀ (k : VLCD.Slave.Codes) (m_buf : Nat → Nat) (buf size fuel : Nat), m_buf 0 ≠ 0 →
      1 ≤ size → size ≤ 255 → size ≤ fuel →
      VLCD.Slave.on_request k m_buf fuel buf size
        = some ((bytesAt m_buf 0 size).map LCD.Call.putchar)) ∧
    (∀ (k : VLCD.Slave.Codes) (m_buf : Nat → Nat) (buf size fuel : Nat), m_buf 0 = 0 →
      (∃ calls, VLCD.Slave.on_request k m_buf fuel buf size = some calls ∧
        ∀ c, LCD.Call.putchar c ∉ calls) ∧
      (size = 3 →
        VLCD.Slave.on_request k m_buf fuel buf size
          = some [LCD.Call.set_cursor (m_buf 1) (m_buf 2)]) ∧
      (size ≠ 2 → size ≠ 3 → VLCD.Slave.on_request k m_buf fuel buf size = some [])) := by
  refine ⟨?_, by decide, ?_, ?_, ?_⟩
  · intro k m_buf buf fuel h0 hf
    obtain ⟨f, rfl⟩ : ∃ f, fuel = f + 1 := ⟨fuel - 1, by omega⟩
    simp [VLCD.Slave.on_request, VLCD.Slave.on_request.loop, h0]
  · intro k m_buf buf size fuel h0 hsize
    simp only [VLCD.Slave.on_request, h0, ne_eq, not_false_eq_true, if_true]
    exact on_request_loop_runs_on m_buf size hsize fuel 1 _ (by decide)
  · intro k m_buf buf size fuel h0 h1 h255 hf
    simp only [VLCD.Slave.on_request, h0, ne_eq, not_false_eq_true, if_true]
    rw [on_request_loop_in_range m_buf size h255 (size - 1) fuel 1 _ (by omega) (by omega)]
    obtain ⟨n, rfl⟩ : ∃ n, size = n + 1 := ⟨size - 1, by omega⟩
    rw [bytesAt_succ]
    simp
  · intro k m_buf buf size fuel h0
    refine ⟨?_, ?_, ?_⟩
    · simp only [VLCD.Slave.on_request, h0, ne_eq, not_true_eq_false, if_false]
      split_ifs <;> exact ⟨_, rfl, by simp⟩
    · intro h3
      simp [VLCD.Slave.on_request, h0, h3]
    · intro h2 h3
      simp [VLCD.Slave.on_request, h0, h2, h3]
